import Mathlib

/-!
# OpenClaw Flight Recorder — verification of the event-analysis and
  receipt-chain core

Shallow embedding of `src/recorder.py` and `src/recorder_ext.py`:
JSON values are modelled by `JVal` (integers only among JSON numbers —
no claim touches floating-point payloads), events are the JSON objects the
Python code manipulates, and SHA-256 is implemented directly over `Nat`
bytes so that every hash the programs compute is computable here.
-/

set_option maxRecDepth 10000

/-- A parsed JSON value, as produced by Python's `json.loads`.
JSON numbers are restricted to integers: the claims under study only ever
hash and compare receipt cores (strings and integer sequence numbers). -/
inductive JVal where
  | null : JVal
  | bool (b : Bool) : JVal
  | int (n : Int) : JVal
  | str (s : String) : JVal
  | arr (xs : List JVal) : JVal
  | obj (fields : List (String × JVal)) : JVal

/-- A Python dict with string keys, in insertion order: the shape of every
event, receipt and highlight in the two analyzers. Keys are distinct. -/
abbrev Dict := List (String × JVal)

/-- `d.get(k)`: first binding of `k`, if any. -/
def dget (d : Dict) (k : String) : Option JVal :=
  match d with
  | [] => none
  | (k', v) :: rest => if k' = k then some v else dget rest k

/-- `k in d`. -/
def dmem (d : Dict) (k : String) : Bool :=
  (dget d k).isSome

/-- `d.get(k, default)`. -/
def dgetD (d : Dict) (k : String) (dflt : JVal) : JVal :=
  (dget d k).getD dflt

/-- `d[k] = v` on an insertion-ordered dict: overwrite in place if the key
exists, else append. -/
def dset (d : Dict) (k : String) (v : JVal) : Dict :=
  match d with
  | [] => [(k, v)]
  | (k', v') :: rest => if k' = k then (k, v) :: rest else (k', v') :: dset rest k v

namespace SHA256

/-- 2^32, the word modulus. -/
def M32 : Nat := 4294967296

def add32 (a b : Nat) : Nat := (a + b) % M32

def rotr (n x : Nat) : Nat := ((x >>> n) ||| (x <<< (32 - n))) % M32

def bigSigma0 (x : Nat) : Nat := (rotr 2 x) ^^^ (rotr 13 x) ^^^ (rotr 22 x)

def bigSigma1 (x : Nat) : Nat := (rotr 6 x) ^^^ (rotr 11 x) ^^^ (rotr 25 x)

def smallSigma0 (x : Nat) : Nat := (rotr 7 x) ^^^ (rotr 18 x) ^^^ (x >>> 3)

def smallSigma1 (x : Nat) : Nat := (rotr 17 x) ^^^ (rotr 19 x) ^^^ (x >>> 10)

def ch (e f g : Nat) : Nat := (e &&& f) ^^^ ((e ^^^ 4294967295) &&& g)

def maj (a b c : Nat) : Nat := (a &&& b) ^^^ (a &&& c) ^^^ (b &&& c)

/-- The 64 round constants. -/
def K : List Nat :=
  [1116352408, 1899447441, 3049323471, 3921009573, 961987163, 1508970993,
   2453635748, 2870763221, 3624381080, 310598401, 607225278, 1426881987,
   1925078388, 2162078206, 2614888103, 3248222580, 3835390401, 4022224774,
   264347078, 604807628, 770255983, 1249150122, 1555081692, 1996064986,
   2554220882, 2821834349, 2952996808, 3210313671, 3336571891, 3584528711,
   113926993, 338241895, 666307205, 773529912, 1294757372, 1396182291,
   1695183700, 1986661051, 2177026350, 2456956037, 2730485921, 2820302411,
   3259730800, 3345764771, 3516065817, 3600352804, 4094571909, 275423344,
   430227734, 506948616, 659060556, 883997877, 958139571, 1322822218,
   1537002063, 1747873779, 1955562222, 2024104815, 2227730452, 2361852424,
   2428436474, 2756734187, 3204031479, 3329325298]

/-- Working registers of the compression function. -/
structure Regs where
  a : Nat
  b : Nat
  c : Nat
  d : Nat
  e : Nat
  f : Nat
  g : Nat
  h : Nat
deriving DecidableEq, Repr

def H0 : Regs :=
  ⟨1779033703, 3144134277, 1013904242, 2773480762,
   1359893119, 2600822924, 528734635, 1541459225⟩

/-- One word of the message schedule, computed from the reversed prefix
(most recent word first). -/
def schedWord (ws : List Nat) : Nat :=
  add32 (add32 (smallSigma1 (ws.getD 1 0)) (ws.getD 6 0))
        (add32 (smallSigma0 (ws.getD 14 0)) (ws.getD 15 0))

/-- Extend the reversed schedule by `n` words. -/
def extendSched : Nat → List Nat → List Nat
  | 0, acc => acc
  | n + 1, acc => extendSched n (schedWord acc :: acc)

/-- W[0..63] from the 16 words of one block. -/
def schedule (block : List Nat) : List Nat :=
  (extendSched 48 block.reverse).reverse

def compressStep (r : Regs) (wk : Nat × Nat) : Regs :=
  let t1 := add32 (add32 (add32 r.h (bigSigma1 r.e)) (add32 (ch r.e r.f r.g) wk.2)) wk.1
  let t2 := add32 (bigSigma0 r.a) (maj r.a r.b r.c)
  ⟨add32 t1 t2, r.a, r.b, r.c, add32 r.d t1, r.e, r.f, r.g⟩

def compressBlock (H : Regs) (block : List Nat) : Regs :=
  let r := ((schedule block).zip K).foldl compressStep H
  ⟨add32 H.a r.a, add32 H.b r.b, add32 H.c r.c, add32 H.d r.d,
   add32 H.e r.e, add32 H.f r.f, add32 H.g r.g, add32 H.h r.h⟩

/-- 8-byte big-endian encoding of the bit length. -/
def be8 (n : Nat) : List Nat :=
  [(n >>> 56) % 256, (n >>> 48) % 256, (n >>> 40) % 256, (n >>> 32) % 256,
   (n >>> 24) % 256, (n >>> 16) % 256, (n >>> 8) % 256, n % 256]

/-- Merkle–Damgård padding: 0x80, zeros to 56 mod 64, 8-byte bit length. -/
def pad (msg : List Nat) : List Nat :=
  msg ++ 128 :: List.replicate ((119 - msg.length % 64) % 64) 0 ++ be8 (8 * msg.length)

/-- Split a byte list into groups of `n` (fuelled structural recursion). -/
def chunksGo (n : Nat) : Nat → List Nat → List (List Nat)
  | 0, _ => []
  | _, [] => []
  | fuel + 1, xs => xs.take n :: chunksGo n fuel (xs.drop n)

def chunksOf (n : Nat) (l : List Nat) : List (List Nat) :=
  chunksGo n l.length l

/-- One 32-bit word from 4 big-endian bytes. -/
def word4 (bs : List Nat) : Nat :=
  (bs.getD 0 0) <<< 24 ||| (bs.getD 1 0) <<< 16 ||| (bs.getD 2 0) <<< 8 ||| bs.getD 3 0

/-- A 64-byte block as 16 words. -/
def blockWords (bs : List Nat) : List Nat :=
  (chunksOf 4 bs).map word4

def nibbleChar (n : Nat) : Char :=
  if n < 10 then Char.ofNat (48 + n) else Char.ofNat (87 + n)

/-- 8 lowercase hex characters of one word. -/
def wordHex (w : Nat) : List Char :=
  [nibbleChar ((w >>> 28) % 16), nibbleChar ((w >>> 24) % 16),
   nibbleChar ((w >>> 20) % 16), nibbleChar ((w >>> 16) % 16),
   nibbleChar ((w >>> 12) % 16), nibbleChar ((w >>> 8) % 16),
   nibbleChar ((w >>> 4) % 16), nibbleChar (w % 16)]

/-- SHA-256 of a byte list, as 64 lowercase hex characters. -/
def sha256Hex (msg : List Nat) : String :=
  let r := ((chunksOf 64 (pad msg)).map blockWords).foldl compressBlock H0
  ⟨wordHex r.a ++ wordHex r.b ++ wordHex r.c ++ wordHex r.d ++
   wordHex r.e ++ wordHex r.f ++ wordHex r.g ++ wordHex r.h⟩

/-- UTF-8 encoding of one scalar value. -/
def utf8Char (c : Char) : List Nat :=
  let n := c.toNat
  if n < 128 then [n]
  else if n < 2048 then [192 ||| (n >>> 6), 128 ||| (n &&& 63)]
  else if n < 65536 then
    [224 ||| (n >>> 12), 128 ||| ((n >>> 6) &&& 63), 128 ||| (n &&& 63)]
  else
    [240 ||| (n >>> 18), 128 ||| ((n >>> 12) &&& 63),
     128 ||| ((n >>> 6) &&& 63), 128 ||| (n &&& 63)]

def utf8 (s : String) : List Nat :=
  (s.toList.map utf8Char).flatten

end SHA256

/-- `hashlib.sha256(s.encode("utf-8")).hexdigest()` — shared by
`_sha256_hex_str` in recorder.py and `sha256_hex` in recorder_ext.py. -/
def sha256str (s : String) : String :=
  SHA256.sha256Hex (SHA256.utf8 s)

/-! ## Python string semantics (ASCII fragment)

The analyzers call `str.lower/upper/strip/startswith/endswith`, substring
tests, and `str()` of parsed JSON values. The helpers below implement the
ASCII fragment of those CPython operations (no claim exercises non-ASCII
case mapping or non-ASCII whitespace). -/

def pyLowerChar (c : Char) : Char :=
  if 'A' ≤ c ∧ c ≤ 'Z' then Char.ofNat (c.toNat + 32) else c

def pyUpperChar (c : Char) : Char :=
  if 'a' ≤ c ∧ c ≤ 'z' then Char.ofNat (c.toNat - 32) else c

def pyLower (s : String) : String := ⟨s.toList.map pyLowerChar⟩

def pyUpper (s : String) : String := ⟨s.toList.map pyUpperChar⟩

/-- The characters `str.strip()` (and `\s`) treats as whitespace. -/
def pyWSChar (c : Char) : Bool :=
  c = ' ' || c = '\t' || c = '\n' || c = '\r' || c = '\x0b' || c = '\x0c'

def pyStrip (s : String) : String :=
  ⟨((s.toList.dropWhile pyWSChar).reverse.dropWhile pyWSChar).reverse⟩

/-- `pat in s` (substring containment). -/
def strContains (s pat : String) : Bool :=
  (List.range (s.toList.length + 1)).any fun i =>
    pat.toList.isPrefixOf (s.toList.drop i)

/-! ## Canonical JSON (`json.dumps(obj, sort_keys=True, separators=(",",":"),
ensure_ascii=False)`), shared by `_canon_json` (recorder.py) and
`canon_json` (recorder_ext.py). -/

/-- One character inside a JSON string literal, per CPython's encoder with
`ensure_ascii=False`. -/
def jsonEscChar (c : Char) : String :=
  if c = '"' then "\\\""
  else if c = '\\' then "\\\\"
  else if c = '\n' then "\\n"
  else if c = '\r' then "\\r"
  else if c = '\t' then "\\t"
  else if c.toNat = 8 then "\\b"
  else if c.toNat = 12 then "\\f"
  else if c.toNat < 32 then
    "\\u00" ++ ⟨[SHA256.nibbleChar (c.toNat / 16), SHA256.nibbleChar (c.toNat % 16)]⟩
  else ⟨[c]⟩

def jsonQuote (s : String) : String :=
  "\"" ++ String.join (s.toList.map jsonEscChar) ++ "\""

/-! Executable size of a JSON value, used as recursion fuel below. -/

mutual

def jsize : JVal → Nat
  | .null => 1
  | .bool _ => 1
  | .int _ => 1
  | .str _ => 1
  | .arr xs => 1 + jsizeList xs
  | .obj fs => 1 + jsizeFields fs

def jsizeList : List JVal → Nat
  | [] => 0
  | x :: xs => jsize x + jsizeList xs

def jsizeFields : List (String × JVal) → Nat
  | [] => 0
  | kv :: fs => jsize kv.2 + jsizeFields fs

end

/-- Python string `<`: code-point lexicographic comparison. -/
def charListLt : List Char → List Char → Bool
  | [], [] => false
  | [], _ :: _ => true
  | _ :: _, [] => false
  | a :: as, b :: bs =>
    if a.toNat < b.toNat then true
    else if b.toNat < a.toNat then false
    else charListLt as bs

def strLt (a b : String) : Bool := charListLt a.data b.data

/-- Stable insertion of one binding into a key-sorted dict (Python string
order is code-point lexicographic). -/
def sortInsert (kv : String × JVal) : Dict → Dict
  | [] => [kv]
  | kv' :: rest =>
    if strLt kv.1 kv'.1 then kv :: kv' :: rest else kv' :: sortInsert kv rest

/-- `sorted(d.items())` by key. -/
def sortKeys : Dict → Dict
  | [] => []
  | kv :: rest => sortInsert kv (sortKeys rest)

/-- Canonical JSON rendering, fuelled by `jsize` (the fuel is always
sufficient; the claims only ever evaluate it, never unfold it symbolically). -/
def canonJsonFuel : Nat → JVal → String
  | _, .null => "null"
  | _, .bool true => "true"
  | _, .bool false => "false"
  | _, .int n => toString n
  | _, .str s => jsonQuote s
  | 0, .arr _ => ""
  | 0, .obj _ => ""
  | fuel + 1, .arr xs =>
    "[" ++ String.intercalate "," (xs.map (canonJsonFuel fuel)) ++ "]"
  | fuel + 1, .obj fs =>
    "\x7b" ++
      String.intercalate ","
        ((sortKeys fs).map fun kv => jsonQuote kv.1 ++ ":" ++ canonJsonFuel fuel kv.2) ++
      "\x7d"

def canonJson (v : JVal) : String := canonJsonFuel (jsize v) v

/-! ## Python `str()` / `repr()` of parsed JSON values -/

def pyReprEscChar (c : Char) : String :=
  if c = '\\' then "\\\\"
  else if c = '\x27' then "\\\x27"
  else if c = '\n' then "\\n"
  else if c = '\r' then "\\r"
  else if c = '\t' then "\\t"
  else ⟨[c]⟩

/-- `repr` of a Python string. CPython switches to double quotes when the
string contains a single quote and no double quote; the claims never repr
such strings, so the single-quoted form is used throughout. -/
def pyReprStr (s : String) : String :=
  "\x27" ++ String.join (s.toList.map pyReprEscChar) ++ "\x27"

/-- `repr(v)` for parsed JSON values, fuelled by `jsize`. -/
def pyReprFuel : Nat → JVal → String
  | _, .null => "None"
  | _, .bool true => "True"
  | _, .bool false => "False"
  | _, .int n => toString n
  | _, .str s => pyReprStr s
  | 0, .arr _ => ""
  | 0, .obj _ => ""
  | fuel + 1, .arr xs =>
    "[" ++ String.intercalate ", " (xs.map (pyReprFuel fuel)) ++ "]"
  | fuel + 1, .obj fs =>
    "\x7b" ++
      String.intercalate ", "
        (fs.map fun kv => pyReprStr kv.1 ++ ": " ++ pyReprFuel fuel kv.2) ++
      "\x7d"

/-- `str(v)` for parsed JSON values: containers render as their repr. -/
def pyStr (v : JVal) : String :=
  match v with
  | .str s => s
  | v => pyReprFuel (jsize v) v

/-! ## `_is_hex64` (recorder.py): length 64 and `int(s, 16)` succeeds.
CPython's `int(s, 16)` strips surrounding whitespace and accepts an
optional sign, an optional `0x`/`0X` prefix (optionally followed by one
underscore), and hex digits with single underscores between digits. -/

def isHexDigitChar (c : Char) : Bool :=
  ('0' ≤ c && c ≤ '9') || ('a' ≤ c && c ≤ 'f') || ('A' ≤ c && c ≤ 'F')

/-- Digits after the first: underscores must be single and followed by a
digit. -/
def hexRest : List Char → Bool
  | [] => true
  | '_' :: c :: rest => isHexDigitChar c && hexRest rest
  | ['_'] => false
  | c :: rest => isHexDigitChar c && hexRest rest

def hexDigitsOk : List Char → Bool
  | [] => false
  | c :: rest => isHexDigitChar c && hexRest rest

def pyIntHex16Ok (s : String) : Bool :=
  let cs := (pyStrip s).toList
  let cs1 := match cs with
    | '+' :: r => r
    | '-' :: r => r
    | r => r
  match cs1 with
  | '0' :: 'x' :: r => hexDigitsOk (match r with | '_' :: r' => r' | r' => r')
  | '0' :: 'X' :: r => hexDigitsOk (match r with | '_' :: r' => r' | r' => r')
  | r => hexDigitsOk r

/-- `_is_hex64(v)`: a string of length 64 accepted by `int(·, 16)`. -/
def pyIsHex64 (v : JVal) : Bool :=
  match v with
  | .str s => s.length == 64 && pyIntHex16Ok s
  | _ => false

/-! ## The two fixed regular expressions, as search deciders

`re.search` semantics for the two patterns, with `.` not matching a
newline (no DOTALL) and case-insensitivity obtained by lowercasing. -/

namespace Re

def isWordChar (c : Char) : Bool :=
  ('a' ≤ c && c ≤ 'z') || ('A' ≤ c && c ≤ 'Z') || ('0' ≤ c && c ≤ '9') || c = '_'

def tokAt (cs : List Char) (i : Nat) (tok : List Char) : Bool :=
  tok.isPrefixOf (cs.drop i)

/-- Positions `i ≤ p < j` hold no newline (a `.*` segment). -/
def noNewline (cs : List Char) (i j : Nat) : Bool :=
  ((cs.drop i).take (j - i)).all (· ≠ '\n')

/-- Positions `i ≤ p < j` are all `\s` (a `\s*` segment). -/
def allWS (cs : List Char) (i j : Nat) : Bool :=
  ((cs.drop i).take (j - i)).all pyWSChar

/-- `\b` at position `i` when the preceding pattern character is a word
character: `i` is the end of the string or a non-word character. -/
def boundaryAfter (cs : List Char) (i : Nat) : Bool :=
  !(isWordChar (cs.getD i ' '))

/-- `\b` at position `i` when the following pattern character is a word
character: `i` is the start or preceded by a non-word character. -/
def boundaryBefore (cs : List Char) (i : Nat) : Bool :=
  i == 0 || !(isWordChar (cs.getD (i - 1) ' '))

/-- `REMOTE_SCRIPT_RE` (recorder.py):
`\b(curl|wget)\b.*\|\s*(bash|sh)\b` with `re.IGNORECASE`, under
`re.search`. A match exists iff some `curl`/`wget` token with word
boundaries is followed (no intervening newline) by a `|`, then only
whitespace, then `bash` or `sh` ending at a word boundary. -/
def remoteScriptRe (s : String) : Bool :=
  let cs := (pyLower s).toList
  let n := cs.length
  (List.range n).any fun i =>
    (tokAt cs i ['c', 'u', 'r', 'l'] || tokAt cs i ['w', 'g', 'e', 't']) &&
    boundaryBefore cs i && boundaryAfter cs (i + 4) &&
    ((List.range n).any fun j =>
      decide (i + 4 ≤ j) && cs.getD j ' ' == '|' && noNewline cs (i + 4) j &&
      ((List.range n).any fun k =>
        decide (j + 1 ≤ k) && allWS cs (j + 1) k &&
        ((tokAt cs k ['b', 'a', 's', 'h'] && boundaryAfter cs (k + 4)) ||
         (tokAt cs k ['s', 'h'] && boundaryAfter cs (k + 2)))))

/-- `REMOTE_SCRIPT_PAT` (recorder_ext.py):
`(curl|wget).*\|.*(sh|bash|zsh)` with `re.IGNORECASE`, under `re.search`.
Since `sh` is a suffix of every alternative of the last group, a match
exists iff some `curl`/`wget` occurrence is followed by a `|` and then an
`sh` occurrence, with no newline inside either `.*` segment. -/
def remoteScriptPat (s : String) : Bool :=
  let cs := (pyLower s).toList
  let n := cs.length
  (List.range n).any fun i =>
    (tokAt cs i ['c', 'u', 'r', 'l'] || tokAt cs i ['w', 'g', 'e', 't']) &&
    ((List.range n).any fun j =>
      decide (i + 4 ≤ j) && cs.getD j ' ' == '|' && noNewline cs (i + 4) j &&
      ((List.range n).any fun k =>
        decide (j + 1 ≤ k) && tokAt cs k ['s', 'h'] && noNewline cs (j + 1) k))

/-- `UNPINNED_VER_PAT` (recorder_ext.py): `(^latest$)|(\*)` with
`re.IGNORECASE`. `$` also matches before a trailing newline. -/
def unpinnedVerPat (s : String) : Bool :=
  pyLower s == "latest" || pyLower s == "latest\n" || s.toList.contains '*'

end Re

/-! ## Miscellaneous Python value semantics used by the analyzers -/

/-- `bool(v)` — Python truthiness of a parsed JSON value. -/
def pyTruthy (v : JVal) : Bool :=
  match v with
  | .null => false
  | .bool b => b
  | .int n => n ≠ 0
  | .str s => s ≠ ""
  | .arr xs => !xs.isEmpty
  | .obj fs => !fs.isEmpty

/-- `int(v)` on a parsed JSON value: `none` models the `TypeError` /
`ValueError` CPython raises on non-numeric values. Numeric strings are
restricted to optionally signed decimal literals. -/
def pyIntCoerce (v : JVal) : Option Int :=
  match v with
  | .int n => some n
  | .bool b => some (if b then 1 else 0)
  | .str s =>
    let cs := (pyStrip s).toList
    let (sign, ds) := match cs with
      | '+' :: r => (1, r)
      | '-' :: r => (-1, r)
      | r => ((1 : Int), r)
    if !ds.isEmpty && ds.all (fun c => '0' ≤ c && c ≤ '9') then
      some (sign * (String.mk ds).toNat!)
    else none
  | _ => none

/-- `float(v)` wrapped in `try/except` with fallback `0.0`, as in the
MEMORY_ACCESS branch of recorder.py (sizes are modelled as integers;
no claim exercises fractional sizes). -/
def pyFloatOr0 (v : JVal) : Int :=
  (pyIntCoerce v).getD 0

/-- Python `==` between a value and an already-known string. Only reached
in the verifier after `_is_hex64` has established both operands are
strings, so the non-string arms (where Python `==` is just `False`
against a string) are exact. -/
def jvalEqStr (v : JVal) (s : String) : Bool :=
  match v with
  | .str t => t == s
  | _ => false

/-- Python `==` between two receipt-hash fields. The verifier compares
these only after `_is_hex64` has passed on both, so both are strings. -/
def jvalStrEq (a b : JVal) : Bool :=
  match a, b with
  | .str x, .str y => x == y
  | _, _ => false

/-- The string payload of a JSON string value. -/
def strOf : JVal → String
  | .str t => t
  | _ => ""

/-- Replace the character at 0-based index `j`. -/
def strSetChar (s : String) (j : Nat) (c : Char) : String :=
  ⟨s.data.set j c⟩

/-- A generic hash-chain predicate: each link's `prev` equals the running
hash, which then advances to the link's own hash. -/
def chainFrom (prevOf ownOf : α → String) (p : String) : List α → Prop
  | [] => True
  | r :: rs => prevOf r = p ∧ chainFrom prevOf ownOf (ownOf r) rs

/-- The 64-hex-character all-zero genesis value. -/
def GENESIS : String := String.mk (List.replicate 64 '0')

namespace Recorder

/-! Embedding of the core of `src/recorder.py`. Configuration extraction
(`load_policy_config` / `pick_rules`), the policy simulator, file-system
bookkeeping, anchor and HTML output are out of the claims' scope (spec
§1); `analyze_events` is modelled with its extracted configuration values
(`sensitive_prefixes`, `memory_threshold`) as parameters, without the
advisory `policy_simulation` field. -/

def KNOWN_EVENT_TYPES : List String :=
  ["ID_ROUTE", "TOOL_CALL", "FILE_IO", "NET_IO", "PROC_EXEC", "DEP_INSTALL",
   "TRANSFER", "MESSAGE_IN", "MESSAGE_OUT", "DATABASE_OP", "API_CALL",
   "MEMORY_ACCESS", "EVIDENCE_GAP"]

def DEFAULT_SENSITIVE_PREFIXES : List String :=
  ["/etc/", "/var/log/", "/root/", "/home/", "/Users/",
   "C:\\Windows\\System32\\", "C:\\Windows\\"]

def DEFAULT_MEMORY_THRESHOLD_BYTES : Int := 1000000000

/-- The fallback keys `merge_details` copies from the top level. -/
def fallbackKeys : List String :=
  ["host", "port", "direction", "path", "op", "mode", "cmd", "cmd_digest",
   "package", "version", "dep_name", "db_type", "query", "endpoint", "headers",
   "size"]

/-- `merge_details(event)`. -/
def mergeDetails (event : Dict) : Dict :=
  let details := match dget event "details" with
    | some (.obj d) => d
    | _ => []
  fallbackKeys.foldl
    (fun d k => if dmem event k && !(dmem d k) then dset d k (dgetD event k .null) else d)
    details

/-- `event_declared(event, declared_intents)`: an explicit boolean
`declared` field wins; otherwise a truthy intents collection is consulted
(entries stripped, empties dropped); otherwise `False`. -/
def eventDeclared (event : Dict) (declaredIntents : Option (List String)) : Bool :=
  match dget event "declared" with
  | some (.bool b) => b
  | _ =>
    let et := pyStr (dgetD event "event_type" (.str ""))
    match declaredIntents with
    | some l =>
      if l.isEmpty then false
      else ((l.map pyStrip).filter (· ≠ "")).contains et
    | none => false

def mustKeys : List String :=
  ["v", "ts", "trace_id", "seq", "actor", "event_type", "payload_digest",
   "domain_class"]

/-- `event.get(k) in (None, "")` (with absence also yielding `None`). -/
def absentOrEmpty (v : Option JVal) : Bool :=
  match v with
  | none => true
  | some .null => true
  | some (.str "") => true
  | some _ => false

/-- `must_fields_missing(event)`. -/
def mustFieldsMissing (event : Dict) : List String :=
  mustKeys.filter fun k => !(dmem event k) || absentOrEmpty (dget event k)

/-- The per-event-type required details table. -/
def requiredDetails (eventType : String) : List String :=
  if eventType = "NET_IO" then ["host", "port", "direction"]
  else if eventType = "FILE_IO" then ["path", "op"]
  else if eventType = "PROC_EXEC" then ["cmd_digest"]
  else if eventType = "DEP_INSTALL" then ["package", "version"]
  else if eventType = "DATABASE_OP" then ["db_type", "query"]
  else if eventType = "API_CALL" then ["endpoint"]
  else if eventType = "MEMORY_ACCESS" then ["size"]
  else []

/-- `required_details_missing(event_type, details)`. -/
def requiredDetailsMissing (eventType : String) (details : Dict) : List String :=
  (requiredDetails eventType).filter fun k => absentOrEmpty (dget details k)

/-- One receipt, as built by the `analyze_events` receipt chain. `seq`
keeps its Python dynamic type (an `int` — or a `bool`, since Python's
`isinstance(seq, int)` accepts booleans). -/
structure Receipt where
  trace_id : String
  seq : JVal
  event_type : String
  event_hash : String
  prev_hash : String
  receipt_hash : String

/-- `seq = ev.get("seq"); if not isinstance(seq, int): seq = idx + 1`
(`idx` 0-based as in `enumerate`). -/
def seqOf (event : Dict) (idx : Nat) : JVal :=
  match dget event "seq" with
  | some (.int n) => .int n
  | some (.bool b) => .bool b
  | _ => .int (idx + 1)

/-- The canonical receipt-core object whose hash is the receipt hash. -/
def receiptCore (traceId : String) (seq : JVal) (et eventHash prevHash : String) : JVal :=
  .obj [("trace_id", .str traceId), ("seq", seq), ("event_type", .str et),
        ("event_hash", .str eventHash), ("prev_hash", .str prevHash)]

/-- Accumulator of the `analyze_events` loop. -/
structure AState where
  summary : List (String × List String)
  extSeen : List (String × Bool)
  highlights : List Dict
  gaps : Nat
  receipts : List Receipt
  prevHash : String

/-- Append one fact string to a behavior-summary bucket. -/
def sumAppend (s : List (String × List String)) (k v : String) :
    List (String × List String) :=
  match s with
  | [] => [(k, [v])]
  | (k', l) :: rest =>
    if k' = k then (k', l ++ [v]) :: rest else (k', l) :: sumAppend rest k v

/-- `behavior_summary.setdefault(k, [])`. -/
def sumSetdefault (s : List (String × List String)) (k : String) :
    List (String × List String) :=
  if s.any (fun kv => kv.1 = k) then s else s ++ [(k, [])]

def extSeenSet (s : List (String × Bool)) (k : String) : List (String × Bool) :=
  s.map fun kv => if kv.1 = k then (kv.1, true) else kv

def initState : AState :=
  { summary := [("network_out", []), ("file_write", []), ("proc_exec", []),
                ("dep_install", [])],
    extSeen := [("database_op", false), ("api_call", false), ("memory_access", false)],
    highlights := [], gaps := 0, receipts := [], prevHash := GENESIS }

/-- One risk-highlight dict of `analyze_events`: tag, seq, evidence, then
the tag-specific auxiliary fields, in source order. -/
def hlDict (tag : String) (seq evidence : JVal) (extra : Dict) : Dict :=
  ("tag", .str tag) :: ("seq", seq) :: ("evidence", evidence) :: extra

/-- The per-header credential-exposure condition of the API_CALL scan:
the lowercased key is a credential key, and the stringified value is
non-empty after stripping and does not contain "redacted"
(case-insensitively). -/
def credCond (kv : String × JVal) : Bool :=
  (pyLower kv.1 = "api_key" || pyLower kv.1 = "x-api-key" ||
    pyLower kv.1 = "authorization") &&
  pyStrip (pyStr kv.2) ≠ "" && !(strContains (pyLower (pyStr kv.2)) "redacted")

/-- The API_CALL credential scan: the first header meeting `credCond`
yields a highlight, then `break`. -/
def apiCredScan (hs : Dict) (seq evidence : JVal) : Option Dict :=
  match hs with
  | [] => none
  | kv :: rest =>
    if credCond kv then
      some (hlDict "API_CREDENTIAL_EXPOSURE" seq evidence [("header", .str kv.1)])
    else apiCredScan rest seq evidence

/-- The gap-detection prefix of one `analyze_events` iteration: increments
the gap counter and appends the EVIDENCE_GAP highlight. -/
def gapHighlights (ev : Dict) (seq evidence : JVal) : List Dict :=
  let missingMust := mustFieldsMissing ev
  let missingDet := requiredDetailsMissing (pyStr (dgetD ev "event_type" (.str "UNKNOWN"))) (mergeDetails ev)
  let hasGap := !missingMust.isEmpty || !missingDet.isEmpty ||
    (match dget ev "data_complete" with | some (.bool false) => true | _ => false)
  if hasGap then
    [hlDict "EVIDENCE_GAP" seq evidence
      [("missing_must", .arr (missingMust.map .str)),
       ("missing_details", .arr (missingDet.map .str))]]
  else []

/-- The unknown-event-type highlight of one iteration. -/
def unknownHighlights (et : String) (seq evidence : JVal) : List Dict :=
  if !(KNOWN_EVENT_TYPES.contains et) then
    [hlDict "UNKNOWN_EVENT_TYPE" seq evidence [("event_type", .str et)]]
  else []

/-- The highlights appended by the type-dispatch arm of one
`analyze_events` iteration, in the source's append order. -/
def typeHighlights (sensitivePrefixes : List String) (memoryThreshold : Int)
    (et : String) (details : Dict) (declared : Bool) (seq evidence : JVal) :
    List Dict :=
  if et = "NET_IO" then
    if pyUpper (pyStr (dgetD details "direction" (.str ""))) = "OUT" && !declared then
      [hlDict "UNDECLARED_EGRESS" seq evidence []]
    else []
  else if et = "FILE_IO" then
    let op := pyLower (pyStr (dgetD details "op" (.str "")))
    let path := pyStr (dgetD details "path" (.str ""))
    if op = "write" || op = "delete" then
      (if sensitivePrefixes.any (fun p => path.startsWith p) then
        [hlDict "SENSITIVE_PATH" seq evidence [("path", .str path)]]
       else []) ++
      (if !declared then
        [hlDict "UNDECLARED_FILE_MUTATION" seq evidence [("path", .str path)]]
       else [])
    else []
  else if et = "PROC_EXEC" then
    let cmd := pyStr (dgetD details "cmd" (.str ""))
    let cmdDigest0 := pyStr (dgetD details "cmd_digest" (.str ""))
    let cmdDigest := if cmdDigest0 = "" then (if cmd ≠ "" then sha256str cmd else "") else cmdDigest0
    (if cmd ≠ "" && Re.remoteScriptRe cmd then
      [hlDict "REMOTE_SCRIPT" seq evidence [("cmd_digest", .str cmdDigest)]]
     else []) ++
    (if !declared then
      [hlDict "UNDECLARED_EXEC" seq evidence [("cmd_digest", .str cmdDigest)]]
     else [])
  else if et = "DEP_INSTALL" then
    let package := pyStr (dgetD details "package" (dgetD details "dep_name" (.str "")))
    let version := pyStr (dgetD details "version" (.str ""))
    (if pyLower version = "latest" || pyLower version = "*" || pyLower version = "" ||
        package.endsWith "@latest" then
      [hlDict "UNPINNED_DEP" seq evidence [("dep", .str (package ++ "@" ++ version))]]
     else []) ++
    (if !declared then
      [hlDict "UNDECLARED_DEP_INSTALL" seq evidence
        [("dep", .str (package ++ "@" ++ version))]]
     else [])
  else if et = "DATABASE_OP" then
    let q := pyLower (pyStr (dgetD details "query" (.str "")))
    if strContains q "drop" || (strContains q "delete" && !(strContains q "where")) then
      [hlDict "SQL_RISK" seq evidence
        [("db_type", .str (pyStr (dgetD details "db_type" (.str ""))))]]
    else []
  else if et = "API_CALL" then
    match dget details "headers" with
    | some (.obj hs) => (apiCredScan hs seq evidence).toList
    | _ => []
  else if et = "MEMORY_ACCESS" then
    let sizeF := pyFloatOr0 (dgetD details "size" (.int 0))
    if sizeF > memoryThreshold then
      [hlDict "HIGH_MEMORY_ACCESS" seq evidence [("size", .int sizeF)]]
    else []
  else []

/-- The behavior-summary update of the type-dispatch arm. -/
def typeSummary (et : String) (details : Dict)
    (summary : List (String × List String)) : List (String × List String) :=
  if et = "NET_IO" then
    if pyUpper (pyStr (dgetD details "direction" (.str ""))) = "OUT" then
      sumAppend summary "network_out"
        ("HOST:" ++ pyStr (dgetD details "host" (.str "")) ++ ":" ++
          pyStr (dgetD details "port" (.str "")))
    else summary
  else if et = "FILE_IO" then
    let op := pyLower (pyStr (dgetD details "op" (.str "")))
    if op = "write" || op = "delete" then
      sumAppend summary "file_write" ("PATH:" ++ pyStr (dgetD details "path" (.str "")))
    else summary
  else if et = "PROC_EXEC" then
    let cmd := pyStr (dgetD details "cmd" (.str ""))
    let cmdDigest0 := pyStr (dgetD details "cmd_digest" (.str ""))
    let cmdDigest := if cmdDigest0 = "" then (if cmd ≠ "" then sha256str cmd else "") else cmdDigest0
    sumAppend summary "proc_exec" ("CMD_DIGEST:sha256:" ++ cmdDigest)
  else if et = "DEP_INSTALL" then
    let package := pyStr (dgetD details "package" (dgetD details "dep_name" (.str "")))
    let version := pyStr (dgetD details "version" (.str ""))
    sumAppend summary "dep_install"
      (if version ≠ "" then package ++ "@" ++ version else package)
  else if et = "DATABASE_OP" then
    sumAppend (sumSetdefault summary "database_op") "database_op"
      ("DB:" ++ pyStr (dgetD details "db_type" (.str "")) ++ " QUERY_HASH:" ++
        sha256str (pyStr (dgetD details "query" (.str ""))))
  else if et = "API_CALL" then
    sumAppend (sumSetdefault summary "api_call") "api_call"
      ("ENDPOINT:" ++ pyStr (dgetD details "endpoint" (.str "")))
  else if et = "MEMORY_ACCESS" then
    sumAppend (sumSetdefault summary "memory_access") "memory_access"
      ("SIZE:" ++ toString (pyFloatOr0 (dgetD details "size" (.int 0))))
  else summary

/-- The `ext_seen` flag update of the type-dispatch arm. -/
def typeExtSeen (et : String) (es : List (String × Bool)) : List (String × Bool) :=
  if et = "DATABASE_OP" then extSeenSet es "database_op"
  else if et = "API_CALL" then extSeenSet es "api_call"
  else if et = "MEMORY_ACCESS" then extSeenSet es "memory_access"
  else es

/-- The type-dispatch arm of one `analyze_events` iteration: updates the
behavior summary and extension flags and appends the type-rule
highlights. -/
def typeDispatch (sensitivePrefixes : List String) (memoryThreshold : Int)
    (et : String) (details : Dict) (declared : Bool) (seq evidence : JVal)
    (s : AState) : AState :=
  { s with
    summary := typeSummary et details s.summary,
    extSeen := typeExtSeen et s.extSeen,
    highlights := s.highlights ++
      typeHighlights sensitivePrefixes memoryThreshold et details declared seq evidence }

/-- One iteration of the `analyze_events` loop (gap detection, unknown
type detection, type dispatch, then the receipt-chain step). -/
def analyzeStep (sensitivePrefixes : List String) (memoryThreshold : Int)
    (declaredIntents : Option (List String)) (idx : Nat) (ev : Dict)
    (s : AState) : AState :=
  let et := pyStr (dgetD ev "event_type" (.str "UNKNOWN"))
  let traceId := pyStr (dgetD ev "trace_id" (.str "unknown-trace"))
  let seq := seqOf ev idx
  let details := mergeDetails ev
  let declared := eventDeclared ev declaredIntents
  let evidence := dgetD ev "payload_digest" (.str "")
  let gh := gapHighlights ev seq evidence
  let s := { s with gaps := s.gaps + gh.length, highlights := s.highlights ++ gh }
  let s := { s with highlights := s.highlights ++ unknownHighlights et seq evidence }
  let s := typeDispatch sensitivePrefixes memoryThreshold et details declared seq evidence s
  let eventHash := sha256str (canonJson (.obj ev))
  let receiptHash := sha256str (canonJson (receiptCore traceId seq et eventHash s.prevHash))
  { s with
    receipts := s.receipts ++ [⟨traceId, seq, et, eventHash, s.prevHash, receiptHash⟩],
    prevHash := receiptHash }

/-- The `for idx, ev in enumerate(events)` loop. -/
def analyzeLoop (sensitivePrefixes : List String) (memoryThreshold : Int)
    (declaredIntents : Option (List String)) : Nat → List Dict → AState → AState
  | _, [], s => s
  | idx, ev :: rest, s =>
    analyzeLoop sensitivePrefixes memoryThreshold declaredIntents (idx + 1) rest
      (analyzeStep sensitivePrefixes memoryThreshold declaredIntents idx ev s)

structure Stats where
  total_events : Nat
  highlight_count : Nat
  evidence_gaps : Nat

structure Badge where
  status : String
  behavior_summary : List (String × List String)
  risk_highlights : List Dict
  stats : Stats

/-- `h.get("tag") not in (None, "")`. -/
def taggedHighlight (h : Dict) : Bool :=
  match dget h "tag" with
  | none => false
  | some .null => false
  | some (.str s) => s ≠ ""
  | some _ => true

/-- `analyze_events(events, declared_intents, policy_cfg, ...)`, with the
configuration values already extracted and without the advisory
policy-simulation field. Returns `(badge, receipts)`. -/
def analyzeEvents (events : List Dict) (declaredIntents : Option (List String))
    (sensitivePrefixes : List String) (memoryThreshold : Int) :
    Badge × List Receipt :=
  let s := analyzeLoop sensitivePrefixes memoryThreshold declaredIntents 0 events initState
  let hc := (s.highlights.filter taggedHighlight).length
  let status :=
    if hc = 0 then "OBSERVED"
    else if 0 < s.gaps then "ATTENTION_WITH_GAPS"
    else "ATTENTION"
  (⟨status, s.summary, s.highlights, ⟨events.length, hc, s.gaps⟩⟩, s.receipts)

/-! ### `verify_receipts_file` — the chain verifier

Modelled from the parsed JSONL rows onward (the missing-file and
invalid-JSONL branches are file I/O preceding the sequence checks). -/

def requiredReceiptKeys : List String :=
  ["trace_id", "seq", "event_type", "event_hash", "prev_hash", "receipt_hash"]

/-- The body of the per-row loop at 0-based row index `i`: the reason the
verifier would return for this row, if any. -/
def rowCheck (i : Nat) (r : Dict) : Option String :=
  match requiredReceiptKeys.find? (fun k => !(dmem r k)) with
  | some k => some ("missing key \x27" ++ k ++ "\x27 at line " ++ toString (i + 1))
  | none =>
    if !(pyIsHex64 (dgetD r "event_hash" .null)) then
      some ("bad event_hash at seq=" ++ pyStr (dgetD r "seq" .null))
    else if !(pyIsHex64 (dgetD r "prev_hash" .null)) then
      some ("bad prev_hash at seq=" ++ pyStr (dgetD r "seq" .null))
    else if !(pyIsHex64 (dgetD r "receipt_hash" .null)) then
      some ("bad receipt_hash at seq=" ++ pyStr (dgetD r "seq" .null))
    else
      let core : JVal := .obj
        [("trace_id", dgetD r "trace_id" .null), ("seq", dgetD r "seq" .null),
         ("event_type", dgetD r "event_type" .null),
         ("event_hash", dgetD r "event_hash" .null),
         ("prev_hash", dgetD r "prev_hash" .null)]
      let expect := sha256str (canonJson core)
      if !(jvalEqStr (dgetD r "receipt_hash" .null) expect) then
        some ("receipt_hash mismatch at seq=" ++ pyStr (dgetD r "seq" .null))
      else none

/-- The per-row loop (`for i, r in enumerate(rows)`). -/
def rowsCheck : Nat → List Dict → Option String
  | _, [] => none
  | i, r :: rest =>
    match rowCheck i r with
    | some msg => some msg
    | none => rowsCheck (i + 1) rest

/-- `rows[i]["prev_hash"] == rows[i-1]["receipt_hash"]` for one adjacent
pair of the chain loop. -/
def chainLinkOk (r0 r1 : Dict) : Bool :=
  jvalStrEq (dgetD r1 "prev_hash" .null) (dgetD r0 "receipt_hash" .null)

/-- The chain loop (`for i in range(1, len(rows))`). -/
def chainCheck : List Dict → Option String
  | r0 :: r1 :: rest =>
    if !(chainLinkOk r0 r1) then
      some ("chain broken at seq=" ++ pyStr (dgetD r1 "seq" .null))
    else chainCheck (r1 :: rest)
  | _ => none

/-- `verify_receipts_file`, from the parsed rows onward. -/
def verifyReceipts (rows : List Dict) : Bool × String :=
  if rows.isEmpty then (false, "receipts empty")
  else
    match rowsCheck 0 rows with
    | some msg => (false, msg)
    | none =>
      match chainCheck rows with
      | some msg => (false, msg)
      | none => (true, "OK")

/-! #### The verifier on raw parsed rows

`json.loads` of a receipts line may yield any JSON value, and only a
parse failure is caught ("invalid JSONL in receipts"); the loops then
run `k not in r`, `r[k]` and `r.get(...)` on the raw rows. `Option`
models the exception: `none` is a `TypeError` escaping
`verify_receipts_file` uncaught. -/

/-- Python `k in r` for a raw row: key membership for an object, element
equality for a list, substring for a string; an int, bool or None is not
a container, so `in` raises `TypeError` (`none`). -/
def pyContains (r : JVal) (k : String) : Option Bool :=
  match r with
  | .obj fields => some (dmem fields k)
  | .arr xs => some (xs.any (fun x => jvalEqStr x k))
  | .str s => some (strContains s k)
  | _ => none

/-- The required-keys loop of the per-row pass, on a raw row. -/
def keyCheckJ (i : Nat) (r : JVal) : List String → Option (Option String)
  | [] => some none
  | k :: ks =>
    match pyContains r k with
    | none => none
    | some false =>
      some (some ("missing key \x27" ++ k ++ "\x27 at line " ++ toString (i + 1)))
    | some true => keyCheckJ i r ks

/-- The per-row body on a raw row: the key loop, then the subscripted
checks, which only a dict row reaches intact — `r["event_hash"]` on a
string or list whose key test passed raises `TypeError`. -/
def rowCheckJ (i : Nat) (r : JVal) : Option (Option String) :=
  match keyCheckJ i r requiredReceiptKeys with
  | none => none
  | some (some msg) => some (some msg)
  | some none =>
    match r with
    | .obj fields => some (rowCheck i fields)
    | _ => none

/-- The per-row loop (`for i, r in enumerate(rows)`) on raw rows. -/
def rowsCheckJ : Nat → List JVal → Option (Option String)
  | _, [] => some none
  | i, r :: rest =>
    match rowCheckJ i r with
    | none => none
    | some (some msg) => some (some msg)
    | some none => rowsCheckJ (i + 1) rest

/-- The chain loop on raw rows: subscripting `rows[i]["prev_hash"]` or
`rows[i-1]["receipt_hash"]` raises on a non-dict row (the loop only runs
after every row passed the per-row checks, which only dict rows do). -/
def chainCheckJ : List JVal → Option (Option String)
  | .obj f0 :: .obj f1 :: rest =>
    if !(chainLinkOk f0 f1) then
      some (some ("chain broken at seq=" ++ pyStr (dgetD f1 "seq" .null)))
    else chainCheckJ (.obj f1 :: rest)
  | _ :: _ :: _ => none
  | _ => some none

/-- `verify_receipts_file` from the raw parsed rows onward: `none` is an
uncaught exception escaping the function. -/
def verifyReceiptsJ (rows : List JVal) : Option (Bool × String) :=
  if rows.isEmpty then some (false, "receipts empty")
  else
    match rowsCheckJ 0 rows with
    | none => none
    | some (some msg) => some (false, msg)
    | some none =>
      match chainCheckJ rows with
      | none => none
      | some (some msg) => some (false, msg)
      | some none => some (true, "OK")

/-! ### `read_jsonl_events` — the JSONL reader

`json.loads` (a stdlib routine) is abstracted as the `loads` parameter,
and the reader's one effect — `_iso_now_utc()` stamped into synthesized
parse-error events — is the explicit `now` parameter. -/

/-- The synthesized placeholder event for an unparseable line. -/
def placeholderEvent (now : String) (lineno : Nat) : Dict :=
  [("v", .str "flight-log/1"), ("ts", .str now),
   ("trace_id", .str "unknown-trace"), ("seq", .int lineno),
   ("actor", .str "unknown"), ("event_type", .str "EVIDENCE_GAP"),
   ("payload_digest", .str ("sha256:" ++ sha256str ("parse_error_line_" ++ toString lineno))),
   ("domain_class", .str "META"), ("declared", .bool false),
   ("data_complete", .bool false),
   ("details", .obj [("reason", .str "json_parse_error"), ("lineno", .int lineno)])]

/-- The reader loop: blank lines are skipped, object lines kept, anything
else (parse failure or non-object JSON) synthesized. `lineno` counts every
line, starting at 1. -/
def readLoop (loads : String → Option JVal) (now : String) :
    Nat → List String → List Dict
  | _, [] => []
  | lineno, line :: rest =>
    if pyStrip line = "" then readLoop loads now (lineno + 1) rest
    else
      match loads (pyStrip line) with
      | some (.obj fields) => fields :: readLoop loads now (lineno + 1) rest
      | _ => placeholderEvent now lineno :: readLoop loads now (lineno + 1) rest

/-- `read_jsonl_events(path)`, over the file's lines. -/
def readJsonlEvents (loads : String → Option JVal) (now : String)
    (lines : List String) : List Dict :=
  readLoop loads now 1 lines

end Recorder

namespace Ext

/-! Embedding of the core of `src/recorder_ext.py`. `int(...)` coercions
that CPython would raise on are modelled with `Option` (`none` = the
exception), so every function is total and the crash paths are visible. -/

/-- `safe_str(x)`: `""` for `None`, else `str(x)`. -/
def safeStr (v : JVal) : String :=
  match v with
  | .null => ""
  | v => pyStr v

/-- `get_details(event)`. -/
def getDetails (event : Dict) : Dict :=
  match dget event "details" with
  | some (.obj d) => d
  | _ => []

/-- `get_field(event, key, default)`: the details map wins, then the top
level, then the default. -/
def getField (event : Dict) (k : String) (dflt : JVal) : JVal :=
  let d := getDetails event
  if dmem d k then dgetD d k .null else dgetD event k dflt

/-- `get_declared(event, declared_intents)`: a truthy intents set
containing the event type wins, then an explicit top-level `declared`
(via `bool(...)`), then a `declared` key inside details, else `False`. -/
def getDeclared (event : Dict) (declaredIntents : Option (List String)) : Bool :=
  let et := safeStr (dgetD event "event_type" (.str ""))
  if (match declaredIntents with
      | some l => !l.isEmpty && l.contains et
      | none => false) then
    true
  else if dmem event "declared" then pyTruthy (dgetD event "declared" .null)
  else if dmem (getDetails event) "declared" then
    pyTruthy (dgetD (getDetails event) "declared" .null)
  else false

/-- `normalize_event(event, seq)`: deep-copies, coerces `seq` to `int`
(`none` models the exception on a non-numeric `seq`) and forces `details`
to a dict. -/
def normalizeEvent (event : Dict) (seq : Nat) : Option Dict :=
  match pyIntCoerce (dgetD event "seq" (.int seq)) with
  | none => none
  | some n =>
    let e := dset event "seq" (.int n)
    match dget e "details" with
    | some (.obj _) => some e
    | _ => some (dset e "details" (.obj []))

/-- `required_fields_for_event_type(event_type)`. -/
def requiredFieldsFor (eventType : String) : List String :=
  if eventType = "NET_IO" then ["host", "port", "direction"]
  else if eventType = "FILE_IO" then ["path", "op"]
  else if eventType = "DATABASE_OP" then ["db_type", "query"]
  else if eventType = "API_CALL" then ["endpoint"]
  else if eventType = "MEMORY_ACCESS" then ["size"]
  else if eventType = "WS_CONNECT" then ["host", "port", "direction", "protocol"]
  else if eventType = "GATEWAY_URL_SET" then
    ["gateway_source", "url_digest", "validation_result"]
  else if eventType = "CRED_SEND" then
    ["cred_type", "cred_digest", "target_host", "target_port", "transport"]
  else []

/-- `is_evidence_gap(event)`. -/
def isEvidenceGap (event : Dict) : Bool :=
  let et := safeStr (dgetD event "event_type" (.str ""))
  if (match dget event "data_complete" with | some (.bool false) => true | _ => false) then
    true
  else if (match getField event "data_complete" .null with
           | .bool false => true | _ => false) then
    true
  else
    (requiredFieldsFor et).any fun k =>
      match getField event k .null with
      | .null => true
      | .str s => pyStrip s = ""
      | _ => false

/-- The API_CALL `nonempty(v)` helper: stripped `str(v)` is non-empty and
its uppercasing is none of the redaction markers. -/
def nonemptyCred (v : JVal) : Bool :=
  let s := match v with
    | .null => ""
    | v => pyStrip (pyStr v)
  s ≠ "" && pyUpper s ≠ "REDACTED" && pyUpper s ≠ "MASKED" &&
    pyUpper s ≠ "<REDACTED>" && pyUpper s ≠ "***"

/-- The API_CALL header loop of `detect_risks`: some header key whose
lowercasing starts with "authorization" or is one of the x-api-key
variants carries a non-redacted value. -/
def credLoopHit (hs : Dict) : Bool :=
  hs.any fun kv =>
    let kl := pyLower kv.1
    (kl.startsWith "authorization" || kl = "x-api-key" || kl = "x_api_key" ||
      kl = "api-key") && nonemptyCred kv.2

/-- The `found` condition of the API_CALL arm of `detect_risks`: the
exact key "api_key" carries a non-redacted value, or some header whose
lowercased key starts with "authorization" or is an x-api-key variant
does. -/
def extApiFound (event : Dict) : Bool :=
  let hs := match getField event "headers" (.obj []) with
    | .obj h => h
    | _ => []
  (match dget hs "api_key" with
   | some v => nonemptyCred v
   | none => false) || credLoopHit hs

/-- One risk dict of `detect_risks`. -/
def extRiskDict (tag : String) (seq : Int) (evHash : JVal) : Dict :=
  [("tag", .str tag), ("seq", .int seq), ("evidence", evHash)]

/-- The type-dispatch table of `detect_risks`, producing the type-rule
risks in source order (`evHash` is the canonical event hash computed by
the caller). -/
def extTypeRisks (event : Dict) (declaredIntents : Option (List String))
    (sensitivePaths : List String) (memoryThreshold : Int) (seq : Int)
    (evHash : JVal) : List Dict :=
  let et := safeStr (dgetD event "event_type" (.str ""))
  let declared := getDeclared event declaredIntents
  if et = "DEP_INSTALL" then
    let ver := safeStr (getField event "version" (.str ""))
    let depName := safeStr (getField event "dep_name" (.str ""))
    (if ver ≠ "" && Re.unpinnedVerPat ver then [extRiskDict "UNPINNED_DEP" seq evHash] else []) ++
    (if depName ≠ "" && strContains depName "@latest" then
      [extRiskDict "UNPINNED_DEP" seq evHash] else []) ++
    (if !declared then [extRiskDict "UNDECLARED_DEP_INSTALL" seq evHash] else [])
  else if et = "PROC_EXEC" then
    let cmd := safeStr (getField event "cmd" (.str ""))
    (if cmd ≠ "" && Re.remoteScriptPat cmd then [extRiskDict "REMOTE_SCRIPT" seq evHash] else []) ++
    (if !declared then [extRiskDict "UNDECLARED_EXEC" seq evHash] else [])
  else if et = "FILE_IO" then
    let path := safeStr (getField event "path" (.str ""))
    let op := pyLower (safeStr (getField event "op" (.str "")))
    let mode := pyLower (safeStr (getField event "mode" (.str "")))
    (if path ≠ "" && sensitivePaths.any (fun p => path.startsWith p) then
      [extRiskDict "SENSITIVE_PATH" seq evHash] else []) ++
    (if (op = "write" || op = "delete" || mode = "w" || mode = "a" || mode = "x") &&
        !declared then
      [extRiskDict "UNDECLARED_FILE_MUTATION" seq evHash] else [])
  else if et = "NET_IO" then
    if pyUpper (safeStr (getField event "direction" (.str ""))) = "OUT" && !declared then
      [extRiskDict "UNDECLARED_NET_IO" seq evHash]
    else []
  else if et = "DATABASE_OP" then
    let query := pyLower (safeStr (getField event "query" (.str "")))
    if strContains query "drop" ||
        (strContains query "delete" && !(strContains query "where")) then
      [extRiskDict "SQL_INJECTION_RISK" seq evHash]
    else []
  else if et = "API_CALL" then
    if extApiFound event then [extRiskDict "API_KEY_EXPOSURE" seq evHash] else []
  else if et = "MEMORY_ACCESS" then
    if (pyIntCoerce (getField event "size" (.int 0))).getD 0 > memoryThreshold then
      [extRiskDict "MEMORY_OVERFLOW_RISK" seq evHash]
    else []
  else if et = "GATEWAY_URL_SET" then
    let src := safeStr (getField event "gateway_source" (.str "unknown"))
    let vr := pyUpper (safeStr (getField event "validation_result" (.str "UNKNOWN")))
    (if src = "query_param" && vr ≠ "PASS" then
      [extRiskDict "UNTRUSTED_GATEWAY_SOURCE" seq evHash] else []) ++
    (if vr = "SKIP" then [extRiskDict "GATEWAY_VALIDATION_SKIPPED" seq evHash] else []) ++
    (if !(pyTruthy (getField event "allowlist_hit" (.bool false))) then
      [extRiskDict "ALLOWLIST_MISS" seq evHash] else [])
  else if et = "WS_CONNECT" then
    let direction := pyUpper (safeStr (getField event "direction" (.str "")))
    let host := safeStr (getField event "host" (.str ""))
    (if direction = "OUT" && pyTruthy (getField event "auto_connect" (.bool false)) then
      [extRiskDict "AUTO_WS_CONNECT" seq evHash] else []) ++
    (if (host = "localhost" || host = "127.0.0.1" || host = "::1") && direction = "OUT" then
      [extRiskDict "WS_TO_LOCALHOST" seq evHash] else [])
  else if et = "CRED_SEND" then
    [extRiskDict "CRED_CROSS_BOUNDARY" seq evHash] ++
    (if !declared then [extRiskDict "UNDECLARED_CRED_SEND" seq evHash] else [])
  else []

/-- `detect_risks(event, declared_intents, sensitive_paths,
memory_threshold)`: the type-rule risks followed by the evidence-gap
risk; `none` models the exception when `int(event.get("seq", -1))`
raises. -/
def detectRisks (event : Dict) (declaredIntents : Option (List String))
    (sensitivePaths : List String) (memoryThreshold : Int) :
    Option (List Dict) :=
  match pyIntCoerce (dgetD event "seq" (.int (-1))) with
  | none => none
  | some seq =>
    let evHash : JVal := .str (sha256str (canonJson (.obj event)))
    some (extTypeRisks event declaredIntents sensitivePaths memoryThreshold seq evHash ++
      (if isEvidenceGap event then [extRiskDict "EVIDENCE_GAP" seq evHash] else []))

/-- One receipt of `build_receipts`, with the deterministic `event_ts`
metadata field. -/
structure Receipt where
  trace_id : String
  seq : Int
  event_type : String
  event_hash : String
  prev_hash : String
  event_ts : JVal
  receipt_hash : String

/-- The canonical core object hashed into `receipt_hash`. -/
def receiptCore (traceId : String) (seq : Int) (et eventHash prevHash : String) : JVal :=
  .obj [("trace_id", .str traceId), ("seq", .int seq), ("event_type", .str et),
        ("event_hash", .str eventHash), ("prev_hash", .str prevHash)]

/-- The `build_receipts` fold; `none` models the exception when
`int(e.get("seq", -1))` raises on some event. -/
def buildReceiptsGo (prev : String) : List Dict → Option (List Receipt)
  | [] => some []
  | e :: rest =>
    match pyIntCoerce (dgetD e "seq" (.int (-1))) with
    | none => none
    | some seq =>
      let traceId := safeStr (dgetD e "trace_id" (.str "UNKNOWN"))
      let et := safeStr (dgetD e "event_type" (.str "UNKNOWN"))
      let evHash := sha256str (canonJson (.obj e))
      let rh := sha256str (canonJson (receiptCore traceId seq et evHash prev))
      match buildReceiptsGo rh rest with
      | none => none
      | some rs =>
        some (⟨traceId, seq, et, evHash, prev, dgetD e "ts" .null, rh⟩ :: rs)

/-- `build_receipts(events)`. -/
def buildReceipts (events : List Dict) : Option (List Receipt) :=
  buildReceiptsGo GENESIS events

/-- The synthesized placeholder event of the ext reader. -/
def placeholderEvent (lineNo : Nat) : Dict :=
  [("v", .str "flight-log/1"), ("ts", .str "UNKNOWN"),
   ("trace_id", .str "UNKNOWN"), ("seq", .int lineNo),
   ("actor", .str "parser"), ("event_type", .str "EVIDENCE_GAP"),
   ("payload_digest", .str "parse_error"), ("domain_class", .str "EVIDENCE"),
   ("declared", .bool false),
   ("details", .obj [("raw_line_no", .int lineNo)]),
   ("data_complete", .bool false)]

/-- The ext reader loop. Unlike recorder.py's reader it keeps non-object
JSON values as parsed (only a `json.JSONDecodeError` synthesizes a
placeholder), and never reads the clock. -/
def readLoop (loads : String → Option JVal) : Nat → List String → List JVal
  | _, [] => []
  | lineNo, line :: rest =>
    if pyStrip line = "" then readLoop loads (lineNo + 1) rest
    else
      match loads (pyStrip line) with
      | some v => v :: readLoop loads (lineNo + 1) rest
      | none => .obj (placeholderEvent lineNo) :: readLoop loads (lineNo + 1) rest

/-- `read_jsonl(path)`, over the file's lines. -/
def readJsonl (loads : String → Option JVal) (lines : List String) : List JVal :=
  readLoop loads 1 lines

end Ext

/-- Running-hash chain predicate: `rs` chains from `p` and ends with
running hash `q`. -/
def chainOk (prevOf ownOf : α → String) (p : String) : List α → String → Prop
  | [], q => p = q
  | r :: rs, q => prevOf r = p ∧ chainOk prevOf ownOf (ownOf r) rs q

theorem chainOk_snoc {prevOf ownOf : α → String} {p q : String} {rs : List α}
    (h : chainOk prevOf ownOf p rs q) (r : α) (hr : prevOf r = q) :
    chainOk prevOf ownOf p (rs ++ [r]) (ownOf r) := by
  induction rs generalizing p with
  | nil =>
    simp only [chainOk, List.nil_append] at h ⊢
    exact ⟨hr.trans h.symm, trivial⟩
  | cons a l ih =>
    obtain ⟨h1, h2⟩ := h
    exact ⟨h1, ih h2⟩

theorem chainOk_getD {prevOf ownOf : α → String} {p q : String} {rs : List α}
    (h : chainOk prevOf ownOf p rs q) (d : α) :
    ∀ i, i < rs.length →
      prevOf (rs.getD i d) =
        if i = 0 then p else ownOf (rs.getD (i - 1) d) := by
  induction rs generalizing p with
  | nil => intro i hi; simp at hi
  | cons a l ih =>
    obtain ⟨h1, h2⟩ := h
    intro i hi
    match i with
    | 0 => simpa using h1
    | 1 =>
      have := ih h2 0 (by simpa using hi)
      simpa using this
    | Nat.succ (Nat.succ j) =>
      have := ih h2 (j + 1) (by simpa using hi)
      simpa using this

namespace Recorder

/-- Each `analyze_events` iteration appends exactly one receipt, linked to
the running hash, and advances the running hash to its own hash; the
iteration's other state does not touch the chain. -/
theorem analyzeStep_receipts (sp : List String) (mt : Int)
    (di : Option (List String)) (idx : Nat) (ev : Dict) (s : AState) :
    ∃ r : Receipt,
      (analyzeStep sp mt di idx ev s).receipts = s.receipts ++ [r] ∧
      r.prev_hash = s.prevHash ∧
      (analyzeStep sp mt di idx ev s).prevHash = r.receipt_hash := by
  exact ⟨_, rfl, rfl, rfl⟩

/-- The chain invariant is preserved by the whole loop, and one receipt is
appended per event. -/
theorem analyzeLoop_chain (sp : List String) (mt : Int)
    (di : Option (List String)) :
    ∀ (evs : List Dict) (idx : Nat) (s : AState),
      chainOk Receipt.prev_hash Receipt.receipt_hash GENESIS s.receipts s.prevHash →
      chainOk Receipt.prev_hash Receipt.receipt_hash GENESIS
          (analyzeLoop sp mt di idx evs s).receipts
          (analyzeLoop sp mt di idx evs s).prevHash ∧
        (analyzeLoop sp mt di idx evs s).receipts.length =
          s.receipts.length + evs.length := by
  intro evs
  induction evs with
  | nil => intro idx s h; exact ⟨h, rfl⟩
  | cons ev rest ih =>
    intro idx s h
    simp only [analyzeLoop]
    obtain ⟨r, hr1, hr2, hr3⟩ := analyzeStep_receipts sp mt di idx ev s
    have hstep : chainOk Receipt.prev_hash Receipt.receipt_hash GENESIS
        (analyzeStep sp mt di idx ev s).receipts
        (analyzeStep sp mt di idx ev s).prevHash := by
      rw [hr1, hr3]
      exact chainOk_snoc h r hr2
    obtain ⟨hc, hl⟩ := ih (idx + 1) (analyzeStep sp mt di idx ev s) hstep
    refine ⟨hc, ?_⟩
    simp only [hl, hr1, List.length_append, List.length_cons, List.length_nil]
    omega

end Recorder

namespace Ext

/-- `build_receipts` produces one receipt per event and keeps the chain
invariant, whenever it does not raise. -/
theorem buildReceiptsGo_chain :
    ∀ (evs : List Dict) (prev : String) (rs : List Receipt),
      buildReceiptsGo prev evs = some rs →
      rs.length = evs.length ∧ ∃ q, chainOk Receipt.prev_hash Receipt.receipt_hash prev rs q := by
  intro evs
  induction evs with
  | nil =>
    intro prev rs h
    simp only [buildReceiptsGo] at h
    cases h
    exact ⟨rfl, prev, rfl⟩
  | cons e rest ih =>
    intro prev rs h
    simp only [buildReceiptsGo] at h
    split at h
    · exact absurd h (by simp)
    · split at h
      · exact absurd h (by simp)
      · rename_i seq hseq rs' hrs'
        cases h
        obtain ⟨hl, q, hq⟩ := ih _ _ hrs'
        exact ⟨by simp [hl], q, rfl, hq⟩

end Ext

/-- Default receipts used only to state indexed chain facts via `getD`. -/
def dummyReceipt : Recorder.Receipt := ⟨"", .null, "", "", "", ""⟩

def dummyExtReceipt : Ext.Receipt := ⟨"", 0, "", "", "", .null, ""⟩

/-- The C1 property for `build_receipts`, guarded by the (possible)
`int(...)` exception: when the Python code returns at all, the chain
invariant holds. -/
def extChainClaim (events : List Dict) : Prop :=
  match Ext.buildReceipts events with
  | none => True
  | some rs =>
    rs.length = events.length ∧
    ∀ i, i < rs.length →
      (rs.getD i dummyExtReceipt).prev_hash =
        if i = 0 then GENESIS else (rs.getD (i - 1) dummyExtReceipt).receipt_hash

/-- C1: both receipt builders emit one receipt per event; receipt 0 links
to the all-zero genesis and receipt i links to receipt i-1's hash. -/
theorem c1_receipt_chain :
    (∀ (events : List Dict) (di : Option (List String)) (sp : List String) (mt : Int),
      (Recorder.analyzeEvents events di sp mt).2.length = events.length ∧
      ∀ i, i < (Recorder.analyzeEvents events di sp mt).2.length →
        ((Recorder.analyzeEvents events di sp mt).2.getD i dummyReceipt).prev_hash =
          if i = 0 then GENESIS
          else ((Recorder.analyzeEvents events di sp mt).2.getD (i - 1) dummyReceipt).receipt_hash) ∧
    (∀ events : List Dict, extChainClaim events) := by
  constructor
  · intro events di sp mt
    obtain ⟨hc, hl⟩ := Recorder.analyzeLoop_chain sp mt di events 0 Recorder.initState rfl
    simp only [Recorder.analyzeEvents]
    refine ⟨by simpa [Recorder.initState] using hl, ?_⟩
    intro i hi
    exact chainOk_getD hc dummyReceipt i hi
  · intro events
    unfold extChainClaim
    split
    · trivial
    · rename_i rs h
      obtain ⟨hl, q, hq⟩ := Ext.buildReceiptsGo_chain events GENESIS rs h
      exact ⟨hl, fun i hi => chainOk_getD hq dummyExtReceipt i hi⟩

namespace Recorder

/-- The tag value of a highlight dict. -/
def isGapTag (h : Dict) : Bool :=
  match dget h "tag" with
  | some (.str t) => t = "EVIDENCE_GAP"
  | _ => false

/-- The closed set of type-rule tags of `analyze_events`. -/
def typeTags : List String :=
  ["UNDECLARED_EGRESS", "SENSITIVE_PATH", "UNDECLARED_FILE_MUTATION",
   "REMOTE_SCRIPT", "UNDECLARED_EXEC", "UNPINNED_DEP", "UNDECLARED_DEP_INSTALL",
   "SQL_RISK", "API_CREDENTIAL_EXPOSURE", "HIGH_MEMORY_ACCESS"]

theorem mem_iteSingleton {c : Prop} [Decidable c] {x h : α}
    (hm : h ∈ (if c then [x] else [])) : h = x := by
  split at hm <;> simp_all

theorem gapHighlights_tag {ev : Dict} {seq evidence : JVal} :
    ∀ h ∈ gapHighlights ev seq evidence, dget h "tag" = some (.str "EVIDENCE_GAP") := by
  intro h hm
  unfold gapHighlights at hm
  rw [mem_iteSingleton hm]
  rfl

theorem unknownHighlights_tag {et : String} {seq evidence : JVal} :
    ∀ h ∈ unknownHighlights et seq evidence,
      dget h "tag" = some (.str "UNKNOWN_EVENT_TYPE") := by
  intro h hm
  unfold unknownHighlights at hm
  split at hm
  · simp only [List.mem_singleton] at hm; rw [hm]; rfl
  · simp at hm

theorem apiCredScan_tag :
    ∀ (hs : Dict) (seq evidence : JVal) (h : Dict),
      apiCredScan hs seq evidence = some h →
      dget h "tag" = some (.str "API_CREDENTIAL_EXPOSURE")
  | [], _, _, _, hE => by simp [apiCredScan] at hE
  | kv :: rest, seq, e, h, hE => by
    simp only [apiCredScan] at hE
    split at hE
    · cases hE; rfl
    · exact apiCredScan_tag rest seq e h hE

theorem typeHighlights_tag (sp : List String) (mt : Int) (et : String)
    (details : Dict) (declared : Bool) (seq evidence : JVal) :
    ∀ h ∈ typeHighlights sp mt et details declared seq evidence,
      ∃ t, dget h "tag" = some (.str t) ∧ t ∈ typeTags := by
  intro h hm
  simp only [typeHighlights] at hm
  repeat' split at hm
  all_goals
    first
    | exact absurd hm (List.not_mem_nil _)
    | (have htag := apiCredScan_tag _ seq evidence h (by simpa using hm)
       exact ⟨_, htag, by decide⟩)
    | (rw [List.mem_singleton.mp hm]; exact ⟨_, rfl, by decide⟩)
    | (rcases List.mem_append.mp hm with hm' | hm' <;>
        first
        | exact absurd hm' (List.not_mem_nil _)
        | (rw [List.mem_singleton.mp hm']; exact ⟨_, rfl, by decide⟩))

end Recorder

namespace Recorder

theorem typeTags_ne_empty {t : String} (h : t ∈ typeTags) : t ≠ "" := by
  simp only [typeTags, List.mem_cons, List.not_mem_nil, or_false] at h
  rcases h with rfl | rfl | rfl | rfl | rfl | rfl | rfl | rfl | rfl | rfl <;> decide

theorem typeTags_ne_gap {t : String} (h : t ∈ typeTags) : t ≠ "EVIDENCE_GAP" := by
  simp only [typeTags, List.mem_cons, List.not_mem_nil, or_false] at h
  rcases h with rfl | rfl | rfl | rfl | rfl | rfl | rfl | rfl | rfl | rfl <;> decide

theorem tagged_of_tag {h : Dict} {t : String}
    (ht : dget h "tag" = some (.str t)) (hne : t ≠ "") :
    taggedHighlight h = true := by
  unfold taggedHighlight
  rw [ht]
  simpa using hne

theorem isGapTag_of_tag {h : Dict} {t : String}
    (ht : dget h "tag" = some (.str t)) :
    isGapTag h = decide (t = "EVIDENCE_GAP") := by
  unfold isGapTag
  rw [ht]

/-- States reachable by the analyze loop: every highlight carries a
non-empty tag, and exactly `gaps` of them are tagged EVIDENCE_GAP. -/
def hlInv (s : AState) : Prop :=
  (s.highlights.filter taggedHighlight).length = s.highlights.length ∧
  (s.highlights.filter isGapTag).length = s.gaps

theorem hlInv_init : hlInv initState := ⟨rfl, rfl⟩

theorem analyzeStep_hlInv (sp : List String) (mt : Int)
    (di : Option (List String)) (idx : Nat) (ev : Dict) (s : AState)
    (h : hlInv s) : hlInv (analyzeStep sp mt di idx ev s) := by
  obtain ⟨h1, h2⟩ := h
  have hgh : ∀ x ∈ gapHighlights ev (seqOf ev idx) (dgetD ev "payload_digest" (.str "")),
      taggedHighlight x = true ∧ isGapTag x = true := by
    intro x hx
    have := gapHighlights_tag x hx
    exact ⟨tagged_of_tag this (by decide), by simp [isGapTag_of_tag this]⟩
  have huh : ∀ x ∈ unknownHighlights (pyStr (dgetD ev "event_type" (.str "UNKNOWN")))
      (seqOf ev idx) (dgetD ev "payload_digest" (.str "")),
      taggedHighlight x = true ∧ isGapTag x = false := by
    intro x hx
    have := unknownHighlights_tag x hx
    exact ⟨tagged_of_tag this (by decide), by simp [isGapTag_of_tag this]⟩
  have hth : ∀ x ∈ typeHighlights sp mt (pyStr (dgetD ev "event_type" (.str "UNKNOWN")))
      (mergeDetails ev) (eventDeclared ev di) (seqOf ev idx)
      (dgetD ev "payload_digest" (.str "")),
      taggedHighlight x = true ∧ isGapTag x = false := by
    intro x hx
    obtain ⟨t, ht, htm⟩ := typeHighlights_tag sp mt _ _ _ _ _ x hx
    constructor
    · exact tagged_of_tag ht (typeTags_ne_empty htm)
    · rw [isGapTag_of_tag ht]
      simp [typeTags_ne_gap htm]
  show hlInv (analyzeStep sp mt di idx ev s)
  unfold hlInv analyzeStep
  simp only [typeDispatch]
  constructor
  · simp only [List.filter_append, List.length_append,
      List.filter_eq_self.mpr (fun x hx => (hgh x hx).1),
      List.filter_eq_self.mpr (fun x hx => (huh x hx).1),
      List.filter_eq_self.mpr (fun x hx => (hth x hx).1), h1]
  · have e1 : (unknownHighlights (pyStr (dgetD ev "event_type" (.str "UNKNOWN")))
        (seqOf ev idx) (dgetD ev "payload_digest" (.str ""))).filter isGapTag = [] :=
      List.filter_eq_nil_iff.mpr (fun x hx => by simp [(huh x hx).2])
    have e2 : (typeHighlights sp mt (pyStr (dgetD ev "event_type" (.str "UNKNOWN")))
        (mergeDetails ev) (eventDeclared ev di) (seqOf ev idx)
        (dgetD ev "payload_digest" (.str ""))).filter isGapTag = [] :=
      List.filter_eq_nil_iff.mpr (fun x hx => by simp [(hth x hx).2])
    simp only [List.filter_append, List.length_append, e1, e2,
      List.filter_eq_self.mpr (fun x hx => (hgh x hx).2), h2, List.length_nil]
    omega

end Recorder

namespace Recorder

theorem analyzeLoop_hlInv (sp : List String) (mt : Int) (di : Option (List String)) :
    ∀ (evs : List Dict) (idx : Nat) (s : AState),
      hlInv s → hlInv (analyzeLoop sp mt di idx evs s) := by
  intro evs
  induction evs with
  | nil => intro idx s h; exact h
  | cons ev rest ih =>
    intro idx s h
    simp only [analyzeLoop]
    exact ih _ _ (analyzeStep_hlInv sp mt di idx ev s h)

end Recorder

/-- C10: every evidence gap contributes one EVIDENCE_GAP highlight, so
`highlight_count ≥ evidence_gaps`, and a badge with gaps is never
OBSERVED. -/
theorem c10_badge_gap_consistency :
    ∀ (events : List Dict) (di : Option (List String)) (sp : List String) (mt : Int),
      ((Recorder.analyzeEvents events di sp mt).1.risk_highlights.filter
          Recorder.isGapTag).length =
        (Recorder.analyzeEvents events di sp mt).1.stats.evidence_gaps ∧
      (Recorder.analyzeEvents events di sp mt).1.stats.evidence_gaps ≤
        (Recorder.analyzeEvents events di sp mt).1.stats.highlight_count ∧
      (0 < (Recorder.analyzeEvents events di sp mt).1.stats.evidence_gaps →
        (Recorder.analyzeEvents events di sp mt).1.status ≠ "OBSERVED") := by
  intro events di sp mt
  obtain ⟨h1, h2⟩ :=
    Recorder.analyzeLoop_hlInv sp mt di events 0 Recorder.initState Recorder.hlInv_init
  simp only [Recorder.analyzeEvents]
  refine ⟨h2, ?_, ?_⟩
  · rw [← h2, h1]
    exact List.length_filter_le _ _
  · intro hpos
    have hle : (Recorder.analyzeLoop sp mt di 0 events Recorder.initState).gaps ≤
        ((Recorder.analyzeLoop sp mt di 0 events Recorder.initState).highlights.filter
          Recorder.taggedHighlight).length := by
      rw [h1, ← h2]
      exact List.length_filter_le _ _
    have hhc : ¬ (((Recorder.analyzeLoop sp mt di 0 events
        Recorder.initState).highlights.filter Recorder.taggedHighlight).length = 0) := by
      omega
    simp only [if_neg hhc, if_pos hpos]
    decide

/-- A PROC_EXEC event with all RFC MUST fields absent: it has an evidence
gap and an undeclared-exec highlight. -/
def gapEvent : Dict := [("event_type", .str "PROC_EXEC")]

theorem c10_badge_gap_consistency_w :
    0 < (Recorder.analyzeEvents [gapEvent] none [] 0).1.stats.evidence_gaps ∧
    (Recorder.analyzeEvents [gapEvent] none [] 0).1.status ≠ "OBSERVED" :=
  ⟨by decide, (c10_badge_gap_consistency [gapEvent] none [] 0).2.2 (by decide)⟩

/-- The tag of a highlight dict, as a string. -/
def tagOf (h : Dict) : String :=
  match dget h "tag" with
  | some (.str t) => t
  | _ => ""

/-- C7 counterexample: for a gap-carrying PROC_EXEC event, recorder.py
emits the EVIDENCE_GAP highlight BEFORE the type-rule highlight, so the
claimed type-rule-first ordering is false. -/
theorem c7_order_counterexample :
    ((Recorder.analyzeEvents [gapEvent] none [] 0).1.risk_highlights.map tagOf) =
      ["EVIDENCE_GAP", "UNDECLARED_EXEC"] ∧
    ¬ (((Recorder.analyzeEvents [gapEvent] none [] 0).1.risk_highlights.map tagOf) =
      ["UNDECLARED_EXEC", "EVIDENCE_GAP"]) := by
  constructor <;> decide

/-- The closed set of type-rule tags of `detect_risks` (recorder_ext). -/
def extTypeTags : List String :=
  ["UNPINNED_DEP", "UNDECLARED_DEP_INSTALL", "REMOTE_SCRIPT", "UNDECLARED_EXEC",
   "SENSITIVE_PATH", "UNDECLARED_FILE_MUTATION", "UNDECLARED_NET_IO",
   "SQL_INJECTION_RISK", "API_KEY_EXPOSURE", "MEMORY_OVERFLOW_RISK",
   "UNTRUSTED_GATEWAY_SOURCE", "GATEWAY_VALIDATION_SKIPPED", "ALLOWLIST_MISS",
   "AUTO_WS_CONNECT", "WS_TO_LOCALHOST", "CRED_CROSS_BOUNDARY",
   "UNDECLARED_CRED_SEND"]

/-- Order property of `detect_risks` output (trivially true on the
`int(...)` exception path, where Python returns nothing). -/
def extRiskOrder : Option (List Dict) → Prop
  | none => True
  | some rs =>
    ∃ typePart gapPart,
      rs = typePart ++ gapPart ∧
      (∀ h ∈ typePart, tagOf h ∈ extTypeTags) ∧
      (∀ h ∈ gapPart, tagOf h = "EVIDENCE_GAP")

/-- Splitting membership in an `if` between its branches. -/
theorem mem_ite_or {c : Prop} [Decidable c] {A B : List α} {x : α}
    (hm : x ∈ if c then A else B) : x ∈ A ∨ x ∈ B := by
  split at hm
  · exact Or.inl hm
  · exact Or.inr hm

namespace Ext

theorem extRiskDict_tag (t : String) (seq : Int) (e : JVal) :
    dget (extRiskDict t seq e) "tag" = some (.str t) := rfl

theorem tagOf_extRiskDict (t : String) (seq : Int) (e : JVal) :
    tagOf (extRiskDict t seq e) = t := rfl

theorem extTypeRisks_tag (event : Dict) (di : Option (List String))
    (sp : List String) (mt : Int) (seq : Int) (evHash : JVal) :
    ∀ h ∈ extTypeRisks event di sp mt seq evHash, tagOf h ∈ extTypeTags := by
  intro h hm
  simp only [extTypeRisks] at hm
  repeat'
    first
    | exact absurd hm (List.not_mem_nil _)
    | (rw [List.mem_singleton.mp hm, tagOf_extRiskDict]; decide)
    | (rcases mem_ite_or hm with hm | hm)
    | (rcases List.mem_append.mp hm with hm | hm)

end Ext

theorem extRisks_order (ev : Dict) (di : Option (List String))
    (sp : List String) (mt : Int) :
    extRiskOrder (Ext.detectRisks ev di sp mt) := by
  unfold Ext.detectRisks
  split
  · trivial
  · rename_i seq hseq
    refine ⟨_, _, rfl, ?_, ?_⟩
    · intro h hm
      exact Ext.extTypeRisks_tag _ _ _ _ _ _ h hm
    · intro h hm
      split at hm
      · simp only [List.mem_singleton] at hm; rw [hm]; rfl
      · exact absurd hm (List.not_mem_nil _)

theorem tagOf_eq_of_dget {h : Dict} {t : String}
    (ht : dget h "tag" = some (.str t)) : tagOf h = t := by
  unfold tagOf
  rw [ht]

/-- C7 (amended): recorder.py appends, per event, the EVIDENCE_GAP
highlight first, then UNKNOWN_EVENT_TYPE, then the type-rule tags —
the reverse of the claimed order; recorder_ext's detect_risks appends
type-rule tags first and EVIDENCE_GAP last and never emits
UNKNOWN_EVENT_TYPE. -/
theorem c7_order_amended :
    (∀ (sp : List String) (mt : Int) (di : Option (List String)) (idx : Nat)
        (ev : Dict) (s : Recorder.AState),
      ∃ th,
        (Recorder.analyzeStep sp mt di idx ev s).highlights =
          s.highlights ++
            Recorder.gapHighlights ev (Recorder.seqOf ev idx)
              (dgetD ev "payload_digest" (.str "")) ++
            Recorder.unknownHighlights (pyStr (dgetD ev "event_type" (.str "UNKNOWN")))
              (Recorder.seqOf ev idx) (dgetD ev "payload_digest" (.str "")) ++ th ∧
        (∀ h ∈ Recorder.gapHighlights ev (Recorder.seqOf ev idx)
            (dgetD ev "payload_digest" (.str "")), tagOf h = "EVIDENCE_GAP") ∧
        (∀ h ∈ Recorder.unknownHighlights (pyStr (dgetD ev "event_type" (.str "UNKNOWN")))
            (Recorder.seqOf ev idx) (dgetD ev "payload_digest" (.str "")),
          tagOf h = "UNKNOWN_EVENT_TYPE") ∧
        (∀ h ∈ th, tagOf h ∈ Recorder.typeTags)) ∧
    (∀ (ev : Dict) (di : Option (List String)) (sp : List String) (mt : Int),
      extRiskOrder (Ext.detectRisks ev di sp mt)) := by
  constructor
  · intro sp mt di idx ev s
    refine ⟨_, rfl, ?_, ?_, ?_⟩
    · intro h hm
      exact tagOf_eq_of_dget (Recorder.gapHighlights_tag h hm)
    · intro h hm
      exact tagOf_eq_of_dget (Recorder.unknownHighlights_tag h hm)
    · intro h hm
      obtain ⟨t, ht, htm⟩ := Recorder.typeHighlights_tag sp mt _ _ _ _ _ h hm
      rw [tagOf_eq_of_dget ht]
      exact htm
  · exact extRisks_order

namespace Recorder

theorem tagOf_hlDict (t : String) (s e : JVal) (x : Dict) :
    tagOf (hlDict t s e x) = t := rfl

/-- countP of a conditional singleton highlight. -/
theorem countP_hl_ite {c : Prop} [Decidable c] (t t' : String) (s e : JVal) (x : Dict) :
    (if c then [hlDict t s e x] else []).countP (fun h => tagOf h == t') =
      if c ∧ t = t' then 1 else 0 := by
  by_cases hc : c
  · simp only [if_pos hc, List.countP_cons, List.countP_nil, tagOf_hlDict]
    by_cases ht : t = t'
    · simp [hlDict, tagOf, dget, ht, hc]
    · simp [hlDict, tagOf, dget, ht, hc]
  · simp [hc]

/-- The REMOTE_SCRIPT tag is emitted by the type dispatch exactly for a
PROC_EXEC event whose raw command is non-empty and matches
`REMOTE_SCRIPT_RE`. -/
theorem typeHighlights_remote (sp : List String) (mt : Int) (et : String)
    (details : Dict) (declared : Bool) (seq evidence : JVal) :
    (typeHighlights sp mt et details declared seq evidence).countP
        (fun h => tagOf h == "REMOTE_SCRIPT") =
      if et = "PROC_EXEC" ∧ pyStr (dgetD details "cmd" (.str "")) ≠ "" ∧
          Re.remoteScriptRe (pyStr (dgetD details "cmd" (.str ""))) then 1
      else 0 := by
  simp only [typeHighlights]
  repeat' split
  all_goals
    simp_all [List.countP_append, countP_hl_ite, List.countP_nil,
      List.countP_cons, tagOf_hlDict]
  intro a ha
  rw [tagOf_eq_of_dget (apiCredScan_tag _ seq evidence a ha)]
  decide

end Recorder

theorem countP_ite_single {c : Prop} [Decidable c] (x : Dict) (t' : String) :
    (if c then [x] else []).countP (fun h => tagOf h == t') =
      if c ∧ tagOf x = t' then 1 else 0 := by
  by_cases hc : c
  · by_cases ht : tagOf x = t' <;> simp [hc, ht]
  · simp [hc]

theorem countP_tag_zero {hs : List Dict} {t : String}
    (h : ∀ x ∈ hs, tagOf x ≠ t) : hs.countP (fun h => tagOf h == t) = 0 := by
  rw [List.countP_eq_zero]
  intro a ha
  simpa using h a ha

namespace Recorder

/-- The API_CALL scan finds a highlight exactly when some header meets
`credCond`. -/
theorem apiCredScan_isSome :
    ∀ (hs : Dict) (seq evidence : JVal),
      (apiCredScan hs seq evidence).isSome = hs.any credCond
  | [], _, _ => rfl
  | kv :: rest, seq, e => by
    simp only [apiCredScan, List.any_cons]
    by_cases hc : credCond kv
    · simp [hc]
    · simp [hc, apiCredScan_isSome rest seq e]

/-- countP of the API_CALL scan result. -/
theorem apiCredScan_countP (hs : Dict) (seq evidence : JVal) :
    ((apiCredScan hs seq evidence).toList).countP
        (fun h => tagOf h == "API_CREDENTIAL_EXPOSURE") =
      if hs.any credCond then 1 else 0 := by
  cases hscan : apiCredScan hs seq evidence with
  | none =>
    have h := apiCredScan_isSome hs seq evidence
    rw [hscan] at h
    simp [← h]
  | some a =>
    have h := apiCredScan_isSome hs seq evidence
    rw [hscan] at h
    simp [tagOf_eq_of_dget (apiCredScan_tag hs seq evidence a hscan), ← h]

/-- The header-exposure condition of an API_CALL event's details. -/
def apiExposed (details : Dict) : Bool :=
  match dget details "headers" with
  | some (.obj hs) => hs.any credCond
  | _ => false

/-- The API_CREDENTIAL_EXPOSURE tag is emitted by the type dispatch
exactly for an API_CALL event with an exposed credential header. -/
theorem typeHighlights_api (sp : List String) (mt : Int) (et : String)
    (details : Dict) (declared : Bool) (seq evidence : JVal) :
    (typeHighlights sp mt et details declared seq evidence).countP
        (fun h => tagOf h == "API_CREDENTIAL_EXPOSURE") =
      if et = "API_CALL" ∧ apiExposed details then 1 else 0 := by
  simp only [typeHighlights]
  repeat' split
  all_goals
    simp_all [List.countP_append, countP_ite_single, List.countP_nil,
      List.countP_cons, tagOf_hlDict, apiExposed, apiCredScan_countP]

end Recorder

namespace Ext

theorem extTypeRisks_remote (event : Dict) (di : Option (List String))
    (sp : List String) (mt : Int) (seq : Int) (evHash : JVal) :
    (extTypeRisks event di sp mt seq evHash).countP
        (fun h => tagOf h == "REMOTE_SCRIPT") =
      if safeStr (dgetD event "event_type" (.str "")) = "PROC_EXEC" ∧
          safeStr (getField event "cmd" (.str "")) ≠ "" ∧
          Re.remoteScriptPat (safeStr (getField event "cmd" (.str ""))) then 1
      else 0 := by
  simp only [extTypeRisks,
    apply_ite (List.countP (fun h => tagOf h == "REMOTE_SCRIPT")),
    List.countP_append, countP_ite_single, List.countP_nil, List.countP_cons,
    tagOf_extRiskDict]
  by_cases h1 : safeStr (dgetD event "event_type" (.str "")) = "DEP_INSTALL" <;>
    by_cases h2 : safeStr (dgetD event "event_type" (.str "")) = "PROC_EXEC" <;>
      simp_all

theorem extTypeRisks_api (event : Dict) (di : Option (List String))
    (sp : List String) (mt : Int) (seq : Int) (evHash : JVal) :
    (extTypeRisks event di sp mt seq evHash).countP
        (fun h => tagOf h == "API_KEY_EXPOSURE") =
      if safeStr (dgetD event "event_type" (.str "")) = "API_CALL" ∧
          extApiFound event then 1
      else 0 := by
  simp only [extTypeRisks,
    apply_ite (List.countP (fun h => tagOf h == "API_KEY_EXPOSURE")),
    List.countP_append, countP_ite_single, List.countP_nil, List.countP_cons,
    tagOf_extRiskDict]
  by_cases h1 : safeStr (dgetD event "event_type" (.str "")) = "DEP_INSTALL" <;>
    by_cases h2 : safeStr (dgetD event "event_type" (.str "")) = "PROC_EXEC" <;>
      by_cases h3 : safeStr (dgetD event "event_type" (.str "")) = "FILE_IO" <;>
        by_cases h4 : safeStr (dgetD event "event_type" (.str "")) = "NET_IO" <;>
          by_cases h5 : safeStr (dgetD event "event_type" (.str "")) = "DATABASE_OP" <;>
            by_cases h6 : safeStr (dgetD event "event_type" (.str "")) = "API_CALL" <;>
              simp_all

end Ext

/-- A fully-populated declared PROC_EXEC event whose command pipes curl
output into zsh. -/
def zshEvent : Dict :=
  [("v", .str "flight-log/1"), ("ts", .str "t"), ("trace_id", .str "t-1"),
   ("seq", .int 1), ("actor", .str "a"), ("event_type", .str "PROC_EXEC"),
   ("payload_digest", .str "sha256:aa"), ("domain_class", .str "EXEC"),
   ("declared", .bool true),
   ("details", .obj [("cmd", .str "curl a|zsh"), ("cmd_digest", .str "d1")])]

/-- C8 counterexample: the claimed pattern (which includes zsh) matches
this command, yet recorder.py's analyzer emits no highlight at all —
its REMOTE_SCRIPT_RE has no zsh alternative and requires the shell right
after the pipe. -/
theorem c8_remote_counterexample :
    Re.remoteScriptPat "curl a|zsh" = true ∧
    ((Recorder.analyzeEvents [zshEvent] none [] 1000000000).1.risk_highlights.map
      tagOf) = [] := by
  constructor <;> decide

/-- The C8 count property for `detect_risks` (trivial on the `int(...)`
exception path). -/
def extRemoteClaim (ev : Dict) : Option (List Dict) → Prop
  | none => True
  | some rs =>
    rs.countP (fun h => tagOf h == "REMOTE_SCRIPT") =
      if Ext.safeStr (dgetD ev "event_type" (.str "")) = "PROC_EXEC" ∧
          Ext.safeStr (Ext.getField ev "cmd" (.str "")) ≠ "" ∧
          Re.remoteScriptPat (Ext.safeStr (Ext.getField ev "cmd" (.str ""))) then 1
      else 0

/-- C8 (amended): recorder.py emits REMOTE_SCRIPT per event exactly when
the event is PROC_EXEC with a non-empty command matching
`\b(curl|wget)\b.*\|\s*(bash|sh)\b` (case-insensitive, no zsh);
recorder_ext emits it exactly when the command matches the claimed
`(curl|wget).*\|.*(sh|bash|zsh)`. -/
theorem c8_remote_amended :
    (∀ (sp : List String) (mt : Int) (di : Option (List String)) (idx : Nat)
        (ev : Dict) (s : Recorder.AState),
      (Recorder.analyzeStep sp mt di idx ev s).highlights.countP
          (fun h => tagOf h == "REMOTE_SCRIPT") =
        s.highlights.countP (fun h => tagOf h == "REMOTE_SCRIPT") +
          (if pyStr (dgetD ev "event_type" (.str "UNKNOWN")) = "PROC_EXEC" ∧
              pyStr (dgetD (Recorder.mergeDetails ev) "cmd" (.str "")) ≠ "" ∧
              Re.remoteScriptRe (pyStr (dgetD (Recorder.mergeDetails ev) "cmd" (.str "")))
            then 1 else 0)) ∧
    (∀ (ev : Dict) (di : Option (List String)) (sp : List String) (mt : Int),
      extRemoteClaim ev (Ext.detectRisks ev di sp mt)) := by
  constructor
  · intro sp mt di idx ev s
    have hstep : (Recorder.analyzeStep sp mt di idx ev s).highlights =
        s.highlights ++
          Recorder.gapHighlights ev (Recorder.seqOf ev idx)
            (dgetD ev "payload_digest" (.str "")) ++
          Recorder.unknownHighlights (pyStr (dgetD ev "event_type" (.str "UNKNOWN")))
            (Recorder.seqOf ev idx) (dgetD ev "payload_digest" (.str "")) ++
          Recorder.typeHighlights sp mt (pyStr (dgetD ev "event_type" (.str "UNKNOWN")))
            (Recorder.mergeDetails ev) (Recorder.eventDeclared ev di)
            (Recorder.seqOf ev idx) (dgetD ev "payload_digest" (.str "")) := rfl
    rw [hstep]
    simp only [List.countP_append]
    have hg0 : (Recorder.gapHighlights ev (Recorder.seqOf ev idx)
        (dgetD ev "payload_digest" (.str ""))).countP
          (fun h => tagOf h == "REMOTE_SCRIPT") = 0 :=
      countP_tag_zero (fun x hx => by
        rw [tagOf_eq_of_dget (Recorder.gapHighlights_tag x hx)]; decide)
    have hu0 : (Recorder.unknownHighlights (pyStr (dgetD ev "event_type" (.str "UNKNOWN")))
        (Recorder.seqOf ev idx) (dgetD ev "payload_digest" (.str ""))).countP
          (fun h => tagOf h == "REMOTE_SCRIPT") = 0 :=
      countP_tag_zero (fun x hx => by
        rw [tagOf_eq_of_dget (Recorder.unknownHighlights_tag x hx)]; decide)
    rw [hg0, hu0, Recorder.typeHighlights_remote]
    omega
  · intro ev di sp mt
    unfold Ext.detectRisks
    split
    · trivial
    · rename_i seq hseq
      show extRemoteClaim ev (some _)
      unfold extRemoteClaim
      simp only [List.countP_append]
      rw [Ext.extTypeRisks_remote]
      have hz : (if Ext.isEvidenceGap ev then
          [Ext.extRiskDict "EVIDENCE_GAP" seq (.str (sha256str (canonJson (.obj ev))))]
          else []).countP (fun h => tagOf h == "REMOTE_SCRIPT") = 0 := by
        split
        · simp [List.countP_cons, Ext.tagOf_extRiskDict]
        · simp
      rw [hz]
      omega

/-- A fully-populated declared API_CALL event whose authorization header
is the redaction marker "MASKED". -/
def maskedEvent : Dict :=
  [("v", .str "flight-log/1"), ("ts", .str "t"), ("trace_id", .str "t-1"),
   ("seq", .int 1), ("actor", .str "a"), ("event_type", .str "API_CALL"),
   ("payload_digest", .str "sha256:bb"), ("domain_class", .str "NET"),
   ("declared", .bool true),
   ("details", .obj [("endpoint", .str "https://api"),
     ("headers", .obj [("authorization", .str "MASKED")])])]

/-- C9 counterexample: the header value is exactly the redaction marker
"MASKED", which the claim says is not tagged, yet recorder.py emits
API_CREDENTIAL_EXPOSURE — it only treats values containing "redacted"
as safe. -/
theorem c9_cred_counterexample :
    ((Recorder.analyzeEvents [maskedEvent] none [] 1000000000).1.risk_highlights.map
      tagOf) = ["API_CREDENTIAL_EXPOSURE"] := by
  decide

/-- The C9 count property for `detect_risks` (trivial on the `int(...)`
exception path). -/
def extApiClaim (ev : Dict) : Option (List Dict) → Prop
  | none => True
  | some rs =>
    rs.countP (fun h => tagOf h == "API_KEY_EXPOSURE") =
      if Ext.safeStr (dgetD ev "event_type" (.str "")) = "API_CALL" ∧
          Ext.extApiFound ev then 1
      else 0

/-- C9 (amended): recorder.py emits API_CREDENTIAL_EXPOSURE per event
exactly when the event is API_CALL and some header key in
{api_key, x-api-key, authorization} (lowercased) has a stripped
non-empty value that does not contain "redacted" case-insensitively —
so "MASKED" and "***" are tagged; recorder_ext emits API_KEY_EXPOSURE
exactly when its broader key set finds a value that is non-empty and not
one of the markers REDACTED/MASKED/<REDACTED>/***. -/
theorem c9_cred_amended :
    (∀ (sp : List String) (mt : Int) (di : Option (List String)) (idx : Nat)
        (ev : Dict) (s : Recorder.AState),
      (Recorder.analyzeStep sp mt di idx ev s).highlights.countP
          (fun h => tagOf h == "API_CREDENTIAL_EXPOSURE") =
        s.highlights.countP (fun h => tagOf h == "API_CREDENTIAL_EXPOSURE") +
          (if pyStr (dgetD ev "event_type" (.str "UNKNOWN")) = "API_CALL" ∧
              Recorder.apiExposed (Recorder.mergeDetails ev)
            then 1 else 0)) ∧
    (∀ (ev : Dict) (di : Option (List String)) (sp : List String) (mt : Int),
      extApiClaim ev (Ext.detectRisks ev di sp mt)) := by
  constructor
  · intro sp mt di idx ev s
    have hstep : (Recorder.analyzeStep sp mt di idx ev s).highlights =
        s.highlights ++
          Recorder.gapHighlights ev (Recorder.seqOf ev idx)
            (dgetD ev "payload_digest" (.str "")) ++
          Recorder.unknownHighlights (pyStr (dgetD ev "event_type" (.str "UNKNOWN")))
            (Recorder.seqOf ev idx) (dgetD ev "payload_digest" (.str "")) ++
          Recorder.typeHighlights sp mt (pyStr (dgetD ev "event_type" (.str "UNKNOWN")))
            (Recorder.mergeDetails ev) (Recorder.eventDeclared ev di)
            (Recorder.seqOf ev idx) (dgetD ev "payload_digest" (.str "")) := rfl
    rw [hstep]
    simp only [List.countP_append]
    have hg0 : (Recorder.gapHighlights ev (Recorder.seqOf ev idx)
        (dgetD ev "payload_digest" (.str ""))).countP
          (fun h => tagOf h == "API_CREDENTIAL_EXPOSURE") = 0 :=
      countP_tag_zero (fun x hx => by
        rw [tagOf_eq_of_dget (Recorder.gapHighlights_tag x hx)]; decide)
    have hu0 : (Recorder.unknownHighlights (pyStr (dgetD ev "event_type" (.str "UNKNOWN")))
        (Recorder.seqOf ev idx) (dgetD ev "payload_digest" (.str ""))).countP
          (fun h => tagOf h == "API_CREDENTIAL_EXPOSURE") = 0 :=
      countP_tag_zero (fun x hx => by
        rw [tagOf_eq_of_dget (Recorder.unknownHighlights_tag x hx)]; decide)
    rw [hg0, hu0, Recorder.typeHighlights_api]
    omega
  · intro ev di sp mt
    unfold Ext.detectRisks
    split
    · trivial
    · rename_i seq hseq
      show extApiClaim ev (some _)
      unfold extApiClaim
      simp only [List.countP_append]
      rw [Ext.extTypeRisks_api]
      have hz : (if Ext.isEvidenceGap ev then
          [Ext.extRiskDict "EVIDENCE_GAP" seq (.str (sha256str (canonJson (.obj ev))))]
          else []).countP (fun h => tagOf h == "API_KEY_EXPOSURE") = 0 := by
        split
        · simp [List.countP_cons, Ext.tagOf_extRiskDict]
        · simp
      rw [hz]
      omega

/-- The declared-resolution precedence exactly as the claim states it:
explicit boolean `declared` field first, then membership of the event
type in the intents set, then false (spec-side definition, for
comparison with the code). -/
def specDeclaredResolve (event : Dict) (declaredIntents : Option (List String)) : Bool :=
  match dget event "declared" with
  | some (.bool b) => b
  | _ =>
    match declaredIntents with
    | some l => l.contains (pyStr (dgetD event "event_type" (.str "")))
    | none => false

/-- C6 counterexample: an event with explicit declared=false whose type
is in the intents set resolves to true under recorder_ext's
get_declared — there the intents set wins, contradicting the claimed
precedence. -/
theorem c6_declared_counterexample :
    Ext.getDeclared [("event_type", .str "NET_IO"), ("declared", .bool false)]
        (some ["NET_IO"]) = true ∧
    specDeclaredResolve [("event_type", .str "NET_IO"), ("declared", .bool false)]
        (some ["NET_IO"]) = false := by
  constructor <;> decide

/-- The intents-membership computation of recorder.py's
`event_declared`: entries stripped, empties dropped; an empty or absent
collection is falsy. -/
def intentsMember (declaredIntents : Option (List String)) (et : String) : Bool :=
  match declaredIntents with
  | some l =>
    if l.isEmpty then false else ((l.map pyStrip).filter (· ≠ "")).contains et
  | none => false

/-- C6 (amended): recorder.py's event_declared follows the claimed
precedence — explicit boolean `declared` wins, else intents membership,
else false; recorder_ext's get_declared instead lets a non-empty intents
set containing the event type win over everything, including an explicit
declared=false. -/
theorem c6_declared_amended :
    (∀ (ev : Dict) (di : Option (List String)) (b : Bool),
      dget ev "declared" = some (.bool b) → Recorder.eventDeclared ev di = b) ∧
    (∀ (ev : Dict) (di : Option (List String)),
      (∀ b : Bool, dget ev "declared" ≠ some (.bool b)) →
      Recorder.eventDeclared ev di =
        intentsMember di (pyStr (dgetD ev "event_type" (.str "")))) ∧
    (∀ (ev : Dict) (l : List String),
      l ≠ [] → l.contains (Ext.safeStr (dgetD ev "event_type" (.str ""))) = true →
      Ext.getDeclared ev (some l) = true) := by
  refine ⟨?_, ?_, ?_⟩
  · intro ev di b h
    unfold Recorder.eventDeclared
    rw [h]
  · intro ev di h
    unfold Recorder.eventDeclared intentsMember
    cases hd : dget ev "declared" with
    | none => rfl
    | some v =>
      cases v with
      | bool b => exact absurd hd (h b)
      | null => rfl
      | int n => rfl
      | str s => rfl
      | arr xs => rfl
      | obj fs => rfl
  · intro ev l hne hmem
    have hie : l.isEmpty = false := by
      cases l with
      | nil => exact absurd rfl hne
      | cons a t => rfl
    simp [Ext.getDeclared, hie, hmem]
    exact Or.inl (by simpa using hmem)

namespace Recorder

/-- The reader processes concatenated line blocks independently, with the
line counter advanced. -/
theorem readLoop_append (loads : String → Option JVal) (now : String) :
    ∀ (xs ys : List String) (n : Nat),
      readLoop loads now n (xs ++ ys) =
        readLoop loads now n xs ++ readLoop loads now (n + xs.length) ys := by
  intro xs
  induction xs with
  | nil => intro ys n; simp [readLoop]
  | cons x rest ih =>
    intro ys n
    have harith : n + 1 + rest.length = n + (x :: rest).length := by
      simp only [List.length_cons]; omega
    simp only [List.cons_append, readLoop, List.append_eq]
    split
    · rw [ih, harith]
    · split
      · rw [ih, harith, List.cons_append]
      · rw [ih, harith, List.cons_append]

/-- One reader event per non-blank line. -/
theorem readLoop_length (loads : String → Option JVal) (now : String) :
    ∀ (lines : List String) (n : Nat),
      (readLoop loads now n lines).length =
        (lines.filter (fun l => pyStrip l ≠ "")).length := by
  intro lines
  induction lines with
  | nil => intro n; rfl
  | cons x rest ih =>
    intro n
    by_cases hb : pyStrip x = ""
    · simp [readLoop, hb, List.filter_cons, ih]
    · simp only [readLoop, if_neg hb, List.filter_cons]
      split <;> simp [hb, ih]

end Recorder

namespace Ext

/-- One ext-reader event per non-blank line. -/
theorem readLoopExt_length (loads : String → Option JVal) :
    ∀ (lines : List String) (n : Nat),
      (readLoop loads n lines).length =
        (lines.filter (fun l => pyStrip l ≠ "")).length := by
  intro lines
  induction lines with
  | nil => intro n; rfl
  | cons x rest ih =>
    intro n
    by_cases hb : pyStrip x = ""
    · simp [readLoop, hb, List.filter_cons, ih]
    · simp only [readLoop, if_neg hb, List.filter_cons]
      split <;> simp [hb, ih]

end Ext

/-- C4 counterexample: a blank line is skipped before parsing, so the
receipt count can be strictly below the number of input lines. -/
theorem c4_parse_error_counterexample :
    (Recorder.analyzeEvents
        (Recorder.readJsonlEvents (fun _ => none) "T" [""]) none [] 0).2.length ≠
      ([""] : List String).length := by
  decide

/-- C4 (amended): non-blank unparseable lines are synthesized into
EVIDENCE_GAP placeholders (recorder.py derives the digest from
`parse_error_line_<n>`, recorder_ext uses the constant "parse_error"),
and the receipt count equals the number of NON-BLANK input lines. -/
theorem c4_parse_error_amended :
    (∀ (loads : String → Option JVal) (now : String) (lines : List String)
        (di : Option (List String)) (sp : List String) (mt : Int),
      (Recorder.analyzeEvents (Recorder.readJsonlEvents loads now lines) di sp mt).2.length =
        (lines.filter (fun l => pyStrip l ≠ "")).length) ∧
    (∀ (loads : String → Option JVal) (lines : List String),
      (Ext.readJsonl loads lines).length =
        (lines.filter (fun l => pyStrip l ≠ "")).length) ∧
    (∀ (loads : String → Option JVal) (now : String) (pre : List String)
        (line : String) (post : List String),
      pyStrip line ≠ "" →
      (∀ fields, loads (pyStrip line) ≠ some (.obj fields)) →
      Recorder.readJsonlEvents loads now (pre ++ line :: post) =
        Recorder.readJsonlEvents loads now pre ++
          Recorder.placeholderEvent now (pre.length + 1) ::
            Recorder.readLoop loads now (pre.length + 2) post) ∧
    (∀ (now : String) (n : Nat),
      dget (Recorder.placeholderEvent now n) "payload_digest" =
        some (.str ("sha256:" ++ sha256str ("parse_error_line_" ++ toString n))) ∧
      dget (Recorder.placeholderEvent now n) "event_type" = some (.str "EVIDENCE_GAP") ∧
      dget (Recorder.placeholderEvent now n) "declared" = some (.bool false) ∧
      dget (Recorder.placeholderEvent now n) "data_complete" = some (.bool false)) ∧
    (∀ n : Nat,
      dget (Ext.placeholderEvent n) "payload_digest" = some (.str "parse_error") ∧
      dget (Ext.placeholderEvent n) "event_type" = some (.str "EVIDENCE_GAP") ∧
      dget (Ext.placeholderEvent n) "declared" = some (.bool false) ∧
      dget (Ext.placeholderEvent n) "data_complete" = some (.bool false)) := by
  refine ⟨?_, ?_, ?_, ?_, ?_⟩
  · intro loads now lines di sp mt
    have h1 := (Recorder.analyzeLoop_chain sp mt di
      (Recorder.readJsonlEvents loads now lines) 0 Recorder.initState rfl).2
    simp only [Recorder.analyzeEvents]
    rw [h1]
    simp only [Recorder.initState, List.length_nil, Nat.zero_add]
    exact Recorder.readLoop_length loads now lines 1
  · intro loads lines
    exact Ext.readLoopExt_length loads lines 1
  · intro loads now pre line post hb hobj
    unfold Recorder.readJsonlEvents
    rw [Recorder.readLoop_append loads now pre (line :: post) 1]
    congr 1
    simp only [Recorder.readLoop, if_neg hb]
    have harith : 1 + pre.length = pre.length + 1 := by omega
    rw [harith]
  · intro now n
    exact ⟨rfl, rfl, rfl, rfl⟩
  · intro n
    exact ⟨rfl, rfl, rfl, rfl⟩

namespace Recorder

/-- When every non-blank line parses to a JSON object, the reader never
consults the clock, so its output is independent of `now`. -/
theorem readLoop_now_irrel (loads : String → Option JVal) (now1 now2 : String) :
    ∀ (lines : List String) (n : Nat),
      (∀ line ∈ lines, pyStrip line = "" ∨
        ∃ fields, loads (pyStrip line) = some (.obj fields)) →
      readLoop loads now1 n lines = readLoop loads now2 n lines := by
  intro lines
  induction lines with
  | nil => intro n h; rfl
  | cons x rest ih =>
    intro n h
    have hx := h x (List.mem_cons_self x rest)
    have hrest : ∀ line ∈ rest, pyStrip line = "" ∨
        ∃ fields, loads (pyStrip line) = some (.obj fields) :=
      fun line hm => h line (List.mem_cons_of_mem x hm)
    by_cases hb : pyStrip x = ""
    · simp only [readLoop, if_pos hb]
      exact ih (n + 1) hrest
    · rcases hx with hb2 | ⟨fields, hl⟩
      · exact absurd hb2 hb
      · simp only [readLoop, if_neg hb, hl]
        rw [ih (n + 1) hrest]

end Recorder

/-- C3 counterexample: an unparseable line makes recorder.py synthesize a
placeholder stamped with the wall-clock time, so two runs of the identical
input at different times yield different event hashes. -/
theorem c3_determinism_counterexample :
    (Recorder.analyzeEvents (Recorder.readJsonlEvents (fun _ => none)
        "2025-01-01T00:00:00Z" ["x"]) none [] 0).2.map Recorder.Receipt.event_hash ≠
      (Recorder.analyzeEvents (Recorder.readJsonlEvents (fun _ => none)
        "2025-01-02T00:00:00Z" ["x"]) none [] 0).2.map Recorder.Receipt.event_hash := by
  decide

/-- C3 (amended): the recorder.py pipeline is deterministic in the input
alone whenever every non-blank line parses to a JSON object (the clock is
only read for synthesized placeholders); recorder_ext stamps its
placeholders with the constant "UNKNOWN" instead of the clock. -/
theorem c3_determinism_amended :
    (∀ (loads : String → Option JVal) (lines : List String) (now1 now2 : String)
        (di : Option (List String)) (sp : List String) (mt : Int),
      (∀ line ∈ lines, pyStrip line = "" ∨
        ∃ fields, loads (pyStrip line) = some (.obj fields)) →
      Recorder.analyzeEvents (Recorder.readJsonlEvents loads now1 lines) di sp mt =
        Recorder.analyzeEvents (Recorder.readJsonlEvents loads now2 lines) di sp mt) ∧
    (∀ n : Nat, dget (Ext.placeholderEvent n) "ts" = some (.str "UNKNOWN")) := by
  constructor
  · intro loads lines now1 now2 di sp mt h
    have hr : Recorder.readJsonlEvents loads now1 lines =
        Recorder.readJsonlEvents loads now2 lines :=
      Recorder.readLoop_now_irrel loads now1 now2 lines 1 h
    rw [hr]
  · intro n; rfl

/-- C3 witness: a fully parseable two-line input analyzed at two different
clock readings gives identical output. -/
theorem c3_determinism_amended_w :
    Recorder.analyzeEvents (Recorder.readJsonlEvents
        (fun s => if s = "\x7b\x7d" then some (.obj []) else none) "T1" ["\x7b\x7d", ""]) none [] 0 =
      Recorder.analyzeEvents (Recorder.readJsonlEvents
        (fun s => if s = "\x7b\x7d" then some (.obj []) else none) "T2" ["\x7b\x7d", ""]) none [] 0 :=
  c3_determinism_amended.1 _ _ "T1" "T2" none [] 0 (by
    intro line hm
    rcases List.mem_cons.mp hm with h | hm
    · subst h; right; exact ⟨[], rfl⟩
    · rcases List.mem_cons.mp hm with h | hm
      · subst h; left; rfl
      · exact absurd hm (List.not_mem_nil _))

/-- C4 witness: splicing lemma applied at a concrete three-line input whose
middle line fails to parse. -/
theorem c4_parse_error_amended_w :
    Recorder.readJsonlEvents (fun _ => none) "T" (["a"] ++ "x" :: ["b"]) =
      Recorder.readJsonlEvents (fun _ => none) "T" ["a"] ++
        Recorder.placeholderEvent "T" 2 :: Recorder.readLoop (fun _ => none) "T" 3 ["b"] :=
  c4_parse_error_amended.2.2.1 (fun _ => none) "T" ["a"] "x" ["b"] (by decide)
    (fun fields h => Option.noConfusion h)

namespace Recorder

/-- Splitting the per-row verification loop across an append. -/
theorem rowsCheck_append :
    ∀ (xs ys : List Dict) (n : Nat),
      rowsCheck n (xs ++ ys) =
        match rowsCheck n xs with
        | some msg => some msg
        | none => rowsCheck (n + xs.length) ys := by
  intro xs
  induction xs with
  | nil => intro ys n; simp [rowsCheck]
  | cons x rest ih =>
    intro ys n
    simp only [List.cons_append, rowsCheck, List.length_cons]
    cases rowCheck n x with
    | some msg => rfl
    | none =>
      have harith : n + (rest.length + 1) = n + 1 + rest.length := by omega
      rw [harith]
      exact ih ys (n + 1)

/-- The per-row loop returns the earliest per-row failure, in
`enumerate` order. -/
theorem rowsCheck_eq_find :
    ∀ (rows : List Dict) (n : Nat),
      rowsCheck n rows =
        ((rows.enumFrom n).find? (fun ir => (rowCheck ir.1 ir.2).isSome)).bind
          (fun ir => rowCheck ir.1 ir.2) := by
  intro rows
  induction rows with
  | nil => intro n; rfl
  | cons r rest ih =>
    intro n
    simp only [rowsCheck, List.enumFrom, List.find?]
    cases hr : rowCheck n r with
    | some msg => simp [hr]
    | none => simp [hr, ih]

/-- The chain loop returns the earliest broken adjacent link. -/
theorem chainCheck_eq_find :
    ∀ rows : List Dict,
      chainCheck rows =
        ((rows.zip rows.tail).find? (fun ab => !(chainLinkOk ab.1 ab.2))).map
          (fun ab => "chain broken at seq=" ++ pyStr (dgetD ab.2 "seq" .null)) := by
  intro rows
  induction rows with
  | nil => rfl
  | cons r0 rest ih =>
    cases rest with
    | nil => rfl
    | cons r1 rest2 =>
      by_cases hl : chainLinkOk r0 r1
      · simp only [chainCheck, List.tail_cons, List.zip_cons_cons, List.find?, hl,
          Bool.not_true, if_neg (Bool.false_ne_true)]
        rw [ih]
        rfl
      · simp only [Bool.not_eq_true] at hl
        simp [chainCheck, List.find?, hl]

/-- No per-row failure at all, elementwise. -/
theorem rowsCheck_none_iff (rows : List Dict) :
    rowsCheck 0 rows = none ↔ ∀ ir ∈ rows.enum, rowCheck ir.1 ir.2 = none := by
  rw [show rows.enum = rows.enumFrom 0 from rfl, rowsCheck_eq_find]
  constructor
  · intro h ir hm
    cases hf : (rows.enumFrom 0).find? (fun ir => (rowCheck ir.1 ir.2).isSome) with
    | some ir0 =>
      rw [hf] at h
      have := List.find?_some hf
      simp only [Option.isSome_iff_exists] at this
      rcases this with ⟨msg, hmsg⟩
      simp [Option.bind, hmsg] at h
    | none =>
      have := List.find?_eq_none.mp hf ir hm
      simpa using this
  · intro h
    cases hf : (rows.enumFrom 0).find? (fun ir => (rowCheck ir.1 ir.2).isSome) with
    | some ir0 =>
      have hp := List.find?_some hf
      have hmem := List.mem_of_find?_eq_some hf
      rw [h ir0 hmem] at hp
      simp at hp
    | none => rfl

/-- Unbroken chain, elementwise over adjacent pairs. -/
theorem chainCheck_none_iff (rows : List Dict) :
    chainCheck rows = none ↔
      ∀ ab ∈ rows.zip rows.tail, chainLinkOk ab.1 ab.2 = true := by
  rw [chainCheck_eq_find]
  constructor
  · intro h ab hm
    cases hf : (rows.zip rows.tail).find? (fun ab => !(chainLinkOk ab.1 ab.2)) with
    | some ab0 => rw [hf] at h; simp at h
    | none =>
      have := List.find?_eq_none.mp hf ab hm
      simpa using this
  · intro h
    cases hf : (rows.zip rows.tail).find? (fun ab => !(chainLinkOk ab.1 ab.2)) with
    | some ab0 =>
      have hp := List.find?_some hf
      have hmem := List.mem_of_find?_eq_some hf
      rw [h ab0 hmem] at hp
      simp at hp
    | none => rfl

end Recorder

theorem dget_dset_self (d : Dict) (k : String) (v : JVal) :
    dget (dset d k v) k = some v := by
  induction d with
  | nil => simp [dset, dget]
  | cons kv rest ih =>
    by_cases hk : kv.1 = k
    · simp [dset, hk, dget]
    · simp [dset, hk, dget, ih]

theorem dget_dset_ne (d : Dict) (k k2 : String) (v : JVal) (h : k2 ≠ k) :
    dget (dset d k v) k2 = dget d k2 := by
  have h2 : ¬(k = k2) := fun he => h he.symm
  induction d with
  | nil => simp [dset, dget, h2]
  | cons kv rest ih =>
    by_cases hk : kv.1 = k
    · subst hk
      simp [dset, dget, h2]
    · simp [dset, hk, dget, ih]

theorem charList_set_getD :
    ∀ (l : List Char) (j : Nat) (c d : Char), j < l.length →
      (l.set j c).getD j d = c := by
  intro l
  induction l with
  | nil => intro j c d h; simp at h
  | cons x rest ih =>
    intro j c d h
    cases j with
    | zero => rfl
    | succ j2 =>
      simp only [List.set, List.getD, List.getElem?_cons_succ]
      have h2 : j2 < rest.length := by simp at h; omega
      simpa [List.getD] using ih j2 c d h2

theorem strSetChar_ne (s : String) (j : Nat) (c : Char)
    (hj : j < s.data.length) (hc : c ≠ s.data.getD j ' ') :
    strSetChar s j c ≠ s := by
  intro he
  have hdata : (strSetChar s j c).data = s.data := by rw [he]
  simp only [strSetChar] at hdata
  have := charList_set_getD s.data j c ' ' hj
  rw [hdata] at this
  exact hc this.symm

namespace Recorder

/-- Mutating the stored `receipt_hash` of a row that passes the per-row
checks makes that row fail them, with a reason naming the row's own
`seq` (as a hex-shape failure or a recompute mismatch). -/
theorem rowCheck_mutate (i i2 : Nat) (r : Dict) (j : Nat) (c : Char)
    (h0 : rowCheck i r = none) (hj : j < 64)
    (hc : c ≠ (strOf (dgetD r "receipt_hash" .null)).data.getD j ' ') :
    ∃ msg,
      rowCheck i2 (dset r "receipt_hash"
        (.str (strSetChar (strOf (dgetD r "receipt_hash" .null)) j c))) = some msg ∧
      (msg = "bad receipt_hash at seq=" ++ pyStr (dgetD r "seq" .null) ∨
       msg = "receipt_hash mismatch at seq=" ++ pyStr (dgetD r "seq" .null)) := by
  simp only [rowCheck] at h0
  cases hfind : requiredReceiptKeys.find? (fun k => !(dmem r k)) with
  | some k => rw [hfind] at h0; simp at h0
  | none =>
  rw [hfind] at h0
  have hkeys := List.find?_eq_none.mp hfind
  by_cases he1 : pyIsHex64 (dgetD r "event_hash" .null) = true
  case neg => rw [Bool.not_eq_true] at he1; simp [he1] at h0
  case pos =>
  by_cases he2 : pyIsHex64 (dgetD r "prev_hash" .null) = true
  case neg => rw [Bool.not_eq_true] at he2; simp [he1, he2] at h0
  case pos =>
  by_cases he3 : pyIsHex64 (dgetD r "receipt_hash" .null) = true
  case neg => rw [Bool.not_eq_true] at he3; simp [he1, he2, he3] at h0
  case pos =>
  by_cases hq : jvalEqStr (dgetD r "receipt_hash" .null)
      (sha256str (canonJson (.obj
        [("trace_id", dgetD r "trace_id" .null), ("seq", dgetD r "seq" .null),
         ("event_type", dgetD r "event_type" .null),
         ("event_hash", dgetD r "event_hash" .null),
         ("prev_hash", dgetD r "prev_hash" .null)]))) = true
  case neg => rw [Bool.not_eq_true] at hq; simp [he1, he2, he3, hq] at h0
  case pos =>
  cases hgr : dget r "receipt_hash" with
  | none =>
    have hm := hkeys "receipt_hash" (by simp [requiredReceiptKeys])
    simp [dmem, hgr] at hm
  | some v =>
  have hrh : dgetD r "receipt_hash" .null = v := by simp [dgetD, hgr]
  cases v with
  | str h =>
    rw [hrh] at he3 hq hc ⊢
    simp only [strOf] at hc ⊢
    have hlen : h.length = 64 := by
      simp only [pyIsHex64, Bool.and_eq_true, beq_iff_eq] at he3
      exact he3.1
    have hexp : h = sha256str (canonJson (.obj
        [("trace_id", dgetD r "trace_id" .null), ("seq", dgetD r "seq" .null),
         ("event_type", dgetD r "event_type" .null),
         ("event_hash", dgetD r "event_hash" .null),
         ("prev_hash", dgetD r "prev_hash" .null)])) := by
      simp only [jvalEqStr, beq_iff_eq] at hq
      exact hq
    have hjd : j < h.data.length := by
      have : h.data.length = 64 := hlen
      omega
    have hwne : strSetChar h j c ≠ h := strSetChar_ne h j c hjd hc
    have gtr : dget (dset r "receipt_hash" (.str (strSetChar h j c))) "trace_id" =
        dget r "trace_id" := dget_dset_ne r "receipt_hash" "trace_id" _ (by decide)
    have gseq : dget (dset r "receipt_hash" (.str (strSetChar h j c))) "seq" =
        dget r "seq" := dget_dset_ne r "receipt_hash" "seq" _ (by decide)
    have get2 : dget (dset r "receipt_hash" (.str (strSetChar h j c))) "event_type" =
        dget r "event_type" := dget_dset_ne r "receipt_hash" "event_type" _ (by decide)
    have geh : dget (dset r "receipt_hash" (.str (strSetChar h j c))) "event_hash" =
        dget r "event_hash" := dget_dset_ne r "receipt_hash" "event_hash" _ (by decide)
    have gph : dget (dset r "receipt_hash" (.str (strSetChar h j c))) "prev_hash" =
        dget r "prev_hash" := dget_dset_ne r "receipt_hash" "prev_hash" _ (by decide)
    have grh : dget (dset r "receipt_hash" (.str (strSetChar h j c))) "receipt_hash" =
        some (.str (strSetChar h j c)) := dget_dset_self r "receipt_hash" _
    have hfind2 : requiredReceiptKeys.find?
        (fun k => !(dmem (dset r "receipt_hash" (.str (strSetChar h j c))) k)) = none := by
      apply List.find?_eq_none.mpr
      intro k hk
      simp only [requiredReceiptKeys, List.mem_cons, List.not_mem_nil, or_false] at hk
      rcases hk with rfl | rfl | rfl | rfl | rfl | rfl
      · have h5 : dmem r "trace_id" = true := by
          simpa using hkeys "trace_id" (by simp [requiredReceiptKeys])
        simp only [dmem, Option.isSome_iff_ne_none] at h5
        simp only [dmem, gtr]
        simpa using h5
      · have h5 : dmem r "seq" = true := by
          simpa using hkeys "seq" (by simp [requiredReceiptKeys])
        simp only [dmem, Option.isSome_iff_ne_none] at h5
        simp only [dmem, gseq]
        simpa using h5
      · have h5 : dmem r "event_type" = true := by
          simpa using hkeys "event_type" (by simp [requiredReceiptKeys])
        simp only [dmem, Option.isSome_iff_ne_none] at h5
        simp only [dmem, get2]
        simpa using h5
      · have h5 : dmem r "event_hash" = true := by
          simpa using hkeys "event_hash" (by simp [requiredReceiptKeys])
        simp only [dmem, Option.isSome_iff_ne_none] at h5
        simp only [dmem, geh]
        simpa using h5
      · have h5 : dmem r "prev_hash" = true := by
          simpa using hkeys "prev_hash" (by simp [requiredReceiptKeys])
        simp only [dmem, Option.isSome_iff_ne_none] at h5
        simp only [dmem, gph]
        simpa using h5
      · simp [dmem, grh]
    simp only [rowCheck, hfind2, dgetD, gtr, gseq, get2, geh, gph, grh, Option.getD_some]
    rw [show (dget r "event_hash").getD .null = dgetD r "event_hash" .null from rfl,
        show (dget r "prev_hash").getD .null = dgetD r "prev_hash" .null from rfl,
        show (dget r "seq").getD .null = dgetD r "seq" .null from rfl,
        show (dget r "trace_id").getD .null = dgetD r "trace_id" .null from rfl,
        show (dget r "event_type").getD .null = dgetD r "event_type" .null from rfl]
    simp only [he1, he2, Bool.not_true, Bool.false_eq_true, if_false]
    by_cases hw : pyIsHex64 (.str (strSetChar h j c)) = true
    case neg =>
      rw [Bool.not_eq_true] at hw
      simp only [hw, Bool.not_false, if_true]
      exact ⟨_, rfl, Or.inl rfl⟩
    case pos =>
      simp only [hw, Bool.not_true, Bool.false_eq_true, if_false]
      have hbeq : jvalEqStr (.str (strSetChar h j c))
          (sha256str (canonJson (.obj
            [("trace_id", dgetD r "trace_id" .null), ("seq", dgetD r "seq" .null),
             ("event_type", dgetD r "event_type" .null),
             ("event_hash", dgetD r "event_hash" .null),
             ("prev_hash", dgetD r "prev_hash" .null)]))) = false := by
        simp only [jvalEqStr]
        rw [← hexp]
        exact beq_eq_false_iff_ne.mpr hwne
      simp only [hbeq, Bool.not_false, if_true]
      exact ⟨_, rfl, Or.inr rfl⟩
  | null => rw [hrh] at he3; simp [pyIsHex64] at he3
  | bool b => rw [hrh] at he3; simp [pyIsHex64] at he3
  | int n => rw [hrh] at he3; simp [pyIsHex64] at he3
  | arr xs => rw [hrh] at he3; simp [pyIsHex64] at he3
  | obj fs => rw [hrh] at he3; simp [pyIsHex64] at he3

end Recorder

/-- C2 counterexample: on an empty receipts file every receipt vacuously
recomputes correctly and the chain is vacuously unbroken, yet the
verifier fails (with "receipts empty"). -/
theorem c2_verifier_counterexample :
    (Recorder.verifyReceipts []).1 = false ∧
    (([] : List Dict).enum.all fun ir => Recorder.rowCheck ir.1 ir.2 == none) = true ∧
    ((([] : List Dict).zip ([] : List Dict).tail).all fun ab =>
      Recorder.chainLinkOk ab.1 ab.2) = true := by
  decide

/-- C2 (amended): verification succeeds iff the rows are nonempty, every
row passes the per-row checks (required keys, hex shapes, recomputed
receipt_hash), and every adjacent link matches; and mutating any single
character of any one receipt_hash of a passing file makes verification
fail with a reason naming exactly that receipt's sequence number. -/
theorem c2_verifier_amended :
    (∀ rows : List Dict,
      (Recorder.verifyReceipts rows).1 = true ↔
        rows ≠ [] ∧ (∀ ir ∈ rows.enum, Recorder.rowCheck ir.1 ir.2 = none) ∧
          (∀ ab ∈ rows.zip rows.tail, Recorder.chainLinkOk ab.1 ab.2 = true)) ∧
    (∀ (pre suf : List Dict) (r : Dict) (j : Nat) (c : Char),
      Recorder.verifyReceipts (pre ++ r :: suf) = (true, "OK") →
      j < 64 →
      c ≠ (strOf (dgetD r "receipt_hash" .null)).data.getD j ' ' →
      ∃ msg,
        Recorder.verifyReceipts (pre ++ dset r "receipt_hash"
          (.str (strSetChar (strOf (dgetD r "receipt_hash" .null)) j c)) :: suf) =
            (false, msg) ∧
        (msg = "bad receipt_hash at seq=" ++ pyStr (dgetD r "seq" .null) ∨
         msg = "receipt_hash mismatch at seq=" ++ pyStr (dgetD r "seq" .null))) := by
  constructor
  · intro rows
    by_cases he : rows.isEmpty = true
    · have hnil : rows = [] := by simpa using he
      subst hnil
      simp [Recorder.verifyReceipts]
    · have hne : rows ≠ [] := by simpa using he
      simp only [Recorder.verifyReceipts, if_neg he]
      cases hrc : Recorder.rowsCheck 0 rows with
      | some msg =>
        constructor
        · intro hx; simp at hx
        · rintro ⟨_, hall, _⟩
          exact absurd ((Recorder.rowsCheck_none_iff rows).mpr hall) (by simp [hrc])
      | none =>
        cases hcc : Recorder.chainCheck rows with
        | some msg =>
          constructor
          · intro hx; simp at hx
          · rintro ⟨_, _, hall⟩
            exact absurd ((Recorder.chainCheck_none_iff rows).mpr hall) (by simp [hcc])
        | none =>
          exact iff_of_true rfl
            ⟨hne, (Recorder.rowsCheck_none_iff rows).mp hrc,
              (Recorder.chainCheck_none_iff rows).mp hcc⟩
  · intro pre suf r j c hver hj hc
    have hne : ((pre ++ r :: suf)).isEmpty = false := by simp
    rw [Recorder.verifyReceipts] at hver
    rw [if_neg (by simp [hne])] at hver
    cases hrc : Recorder.rowsCheck 0 (pre ++ r :: suf) with
    | some msg => rw [hrc] at hver; simp at hver
    | none =>
      have hsplit := Recorder.rowsCheck_append pre (r :: suf) 0
      rw [hrc] at hsplit
      cases hpre : Recorder.rowsCheck 0 pre with
      | some m => rw [hpre] at hsplit; simp at hsplit
      | none =>
        rw [hpre] at hsplit
        simp only [Nat.zero_add] at hsplit
        rw [Recorder.rowsCheck] at hsplit
        cases hr0 : Recorder.rowCheck pre.length r with
        | some m => rw [hr0] at hsplit; simp at hsplit
        | none =>
          obtain ⟨msg, hmut, hd⟩ :=
            Recorder.rowCheck_mutate pre.length pre.length r j c hr0 hj hc
          refine ⟨msg, ?_, hd⟩
          rw [Recorder.verifyReceipts, if_neg (by simp)]
          have hsplit2 := Recorder.rowsCheck_append pre
            (dset r "receipt_hash"
              (.str (strSetChar (strOf (dgetD r "receipt_hash" .null)) j c)) :: suf) 0
          simp only [hpre, Nat.zero_add] at hsplit2
          rw [hsplit2, Recorder.rowsCheck, hmut]

/-- A verified two-receipt chain (hash values are the actual SHA-256 of
the canonical core objects). -/
def c2row0 : Dict :=
  [("trace_id", .str "t"), ("seq", .int 1), ("event_type", .str "X"),
   ("event_hash", .str (String.mk (List.replicate 64 'a'))),
   ("prev_hash", .str GENESIS),
   ("receipt_hash", .str "5f49720fd8b16d096d0b9fcf52cd8aec4bfe278ec5bedfc7c6282c34c3955327")]

def c2row1 : Dict :=
  [("trace_id", .str "t"), ("seq", .int 2), ("event_type", .str "X"),
   ("event_hash", .str (String.mk (List.replicate 64 'a'))),
   ("prev_hash", .str "5f49720fd8b16d096d0b9fcf52cd8aec4bfe278ec5bedfc7c6282c34c3955327"),
   ("receipt_hash", .str "85ce77a44d15f622d77fa63c0755c7ef02dc604f3bca73433f9e8cc7cae58a05")]

/-- C2 witness: mutating one character of the first receipt hash of a
concrete verified chain fails with that receipt's sequence number. -/
theorem c2_verifier_amended_w :
    ∃ msg,
      Recorder.verifyReceipts ([] ++ dset c2row0 "receipt_hash"
        (.str (strSetChar (strOf (dgetD c2row0 "receipt_hash" .null)) 0 'z')) :: [c2row1]) =
          (false, msg) ∧
      (msg = "bad receipt_hash at seq=" ++ pyStr (dgetD c2row0 "seq" .null) ∨
       msg = "receipt_hash mismatch at seq=" ++ pyStr (dgetD c2row0 "seq" .null)) :=
  c2_verifier_amended.2 [] [c2row1] c2row0 0 'z' (by decide) (by decide) (by decide)

namespace Recorder

/-- From the claim's words: the chain-continuity check at row `i`. -/
def specChainBrokenAt (rows : List Dict) (i : Nat) : Bool :=
  !(chainLinkOk (rows.getD (i - 1) []) (rows.getD i []))

/-- From the claim's words: some check (required keys, hex shape,
recomputed hash, or chain continuity) fails at row `i`. -/
def specOffendingAt (rows : List Dict) (i : Nat) : Bool :=
  (rowCheck i (rows.getD i [])).isSome || (decide (0 < i) && specChainBrokenAt rows i)

/-- From the claim's words: the earliest row index at which any check
fails. -/
def specFirstOffendingIdx (rows : List Dict) : Option Nat :=
  (List.range rows.length).find? (specOffendingAt rows)

/-- From the claim's words, adjusted to the code's two passes: the
earliest per-row failure, in `enumerate` order. -/
def specRowOffending (rows : List Dict) : Option String :=
  ((rows.enum).find? (fun ir => (rowCheck ir.1 ir.2).isSome)).bind
    (fun ir => rowCheck ir.1 ir.2)

/-- From the claim's words, adjusted to the code's two passes: the
earliest broken adjacent link. -/
def specChainOffending (rows : List Dict) : Option String :=
  ((rows.zip rows.tail).find? (fun ab => !(chainLinkOk ab.1 ab.2))).map
    (fun ab => "chain broken at seq=" ++ pyStr (dgetD ab.2 "seq" .null))

end Recorder

/-- Three rows: row 0 is valid, row 1 passes the per-row checks but its
prev_hash breaks the chain, row 2 has a stored receipt_hash that fails
recomputation. -/
def c5rows : List Dict :=
  [[("trace_id", .str "t"), ("seq", .int 1), ("event_type", .str "X"),
    ("event_hash", .str (String.mk (List.replicate 64 'a'))),
    ("prev_hash", .str GENESIS),
    ("receipt_hash", .str "5f49720fd8b16d096d0b9fcf52cd8aec4bfe278ec5bedfc7c6282c34c3955327")],
   [("trace_id", .str "t"), ("seq", .int 2), ("event_type", .str "X"),
    ("event_hash", .str (String.mk (List.replicate 64 'a'))),
    ("prev_hash", .str (String.mk (List.replicate 64 '1'))),
    ("receipt_hash", .str "ced9bd86d7baece3b62fd308e2b708993ee0e649d9573298bb716e564f0a4988")],
   [("trace_id", .str "t"), ("seq", .int 3), ("event_type", .str "X"),
    ("event_hash", .str (String.mk (List.replicate 64 'a'))),
    ("prev_hash", .str "ced9bd86d7baece3b62fd308e2b708993ee0e649d9573298bb716e564f0a4988"),
    ("receipt_hash", .str (String.mk (List.replicate 64 '2')))]]

namespace Recorder

/-- On an object row the raw key loop finds the first missing required
key, exactly as the dict model's `find?`. -/
theorem keyCheckJ_obj :
    ∀ (ks : List String) (i : Nat) (fields : Dict),
      keyCheckJ i (.obj fields) ks =
        some ((ks.find? (fun k => !(dmem fields k))).map
          (fun k => "missing key \x27" ++ k ++ "\x27 at line " ++ toString (i + 1))) := by
  intro ks
  induction ks with
  | nil => intro i fields; rfl
  | cons k rest ih =>
    intro i fields
    by_cases hm : dmem fields k = true
    · simp [keyCheckJ, pyContains, hm, List.find?, ih]
    · have hm2 : dmem fields k = false := by simpa using hm
      simp [keyCheckJ, pyContains, hm2, List.find?]

/-- On an object row the raw per-row body agrees with the dict model. -/
theorem rowCheckJ_obj (i : Nat) (fields : Dict) :
    rowCheckJ i (.obj fields) = some (rowCheck i fields) := by
  rw [rowCheckJ, keyCheckJ_obj]
  cases hf : requiredReceiptKeys.find? (fun k => !(dmem fields k)) with
  | some k => simp [rowCheck, hf]
  | none => simp [rowCheck, hf]

/-- On object rows the raw per-row loop agrees with the dict model (in
particular it raises nothing). -/
theorem rowsCheckJ_obj :
    ∀ (rows : List Dict) (n : Nat),
      rowsCheckJ n (rows.map .obj) = some (rowsCheck n rows) := by
  intro rows
  induction rows with
  | nil => intro n; rfl
  | cons r rest ih =>
    intro n
    simp only [List.map_cons, rowsCheckJ, rowCheckJ_obj]
    cases hr : rowCheck n r with
    | some msg => simp [rowsCheck, hr]
    | none => simp [rowsCheck, hr, ih]

/-- On object rows the raw chain loop agrees with the dict model. -/
theorem chainCheckJ_obj :
    ∀ rows : List Dict, chainCheckJ (rows.map .obj) = some (chainCheck rows) := by
  intro rows
  induction rows with
  | nil => rfl
  | cons r0 rest ih =>
    cases rest with
    | nil => rfl
    | cons r1 rest2 =>
      have stepJ : chainCheckJ ((r0 :: r1 :: rest2).map .obj) =
          if !(chainLinkOk r0 r1) then
            some (some ("chain broken at seq=" ++ pyStr (dgetD r1 "seq" .null)))
          else chainCheckJ ((r1 :: rest2).map .obj) := rfl
      have stepD : chainCheck (r0 :: r1 :: rest2) =
          if !(chainLinkOk r0 r1) then
            some ("chain broken at seq=" ++ pyStr (dgetD r1 "seq" .null))
          else chainCheck (r1 :: rest2) := rfl
      rw [stepJ, stepD]
      by_cases hl : chainLinkOk r0 r1
      · simp only [hl, Bool.not_true, Bool.false_eq_true, if_false]
        exact ih
      · simp only [Bool.not_eq_true] at hl
        simp [hl]

end Recorder

/-- C5 counterexample: a receipts file whose first line parses to the
JSON number 123 makes the verifier raise a `TypeError` at `k not in r`
rather than return a result; and on all-dict rows the reported sequence
number is not the first offending receipt's — the earliest offending
receipt of `c5rows` is row 1 (seq 2, a chain-continuity failure), but
the verifier reports seq 3, because every per-row check runs before any
chain check. -/
theorem c5_first_offending_counterexample :
    Recorder.verifyReceiptsJ [.int 123] = none ∧
    Recorder.verifyReceipts c5rows = (false, "receipt_hash mismatch at seq=3") ∧
    Recorder.specFirstOffendingIdx c5rows = some 1 ∧
    pyStr (dgetD (c5rows.getD 1 []) "seq" .null) = "2" := by
  decide

/-- C5 (amended): on rows that all parse to JSON objects the verifier
never raises — it agrees with the dict model — and reports, in order of
precedence, emptiness, then the earliest per-row failure (required keys,
hex shapes, recomputed hash) across ALL rows, and only then the earliest
broken adjacent chain link; but a row parsing to a number, boolean or
null makes it raise `TypeError` uncaught, while a non-object row that
supports `in` (such as a string) still gets the missing-key return. -/
theorem c5_first_offending_amended :
    (∀ rows : List Dict,
      Recorder.verifyReceiptsJ (rows.map .obj) = some (Recorder.verifyReceipts rows)) ∧
    (∀ rows : List Dict,
      Recorder.verifyReceipts rows =
        if rows.isEmpty then (false, "receipts empty")
        else
          match Recorder.specRowOffending rows with
          | some msg => (false, msg)
          | none =>
            match Recorder.specChainOffending rows with
            | some msg => (false, msg)
            | none => (true, "OK")) ∧
    (∀ (n : Int) (suf : List JVal), Recorder.verifyReceiptsJ (.int n :: suf) = none) ∧
    (∀ suf : List JVal, Recorder.verifyReceiptsJ (.null :: suf) = none) ∧
    (∀ (b : Bool) (suf : List JVal), Recorder.verifyReceiptsJ (.bool b :: suf) = none) ∧
    (∀ suf : List JVal,
      Recorder.verifyReceiptsJ (.str "x" :: suf) =
        some (false, "missing key \x27trace_id\x27 at line 1")) := by
  refine ⟨?_, ?_, ?_, ?_, ?_, ?_⟩
  · intro rows
    cases rows with
    | nil => rfl
    | cons r rest =>
      have h1 : ((r :: rest).map JVal.obj).isEmpty = false := by simp
      simp only [Recorder.verifyReceiptsJ, Recorder.verifyReceipts, h1, List.isEmpty_cons,
        Bool.false_eq_true, if_false]
      rw [Recorder.rowsCheckJ_obj (r :: rest) 0]
      cases hrc : Recorder.rowsCheck 0 (r :: rest) with
      | some msg => rfl
      | none =>
        rw [Recorder.chainCheckJ_obj (r :: rest)]
        cases hcc : Recorder.chainCheck (r :: rest) with
        | some msg => rfl
        | none => rfl
  · intro rows
    have h1 : Recorder.specRowOffending rows = Recorder.rowsCheck 0 rows := by
      rw [Recorder.specRowOffending, show rows.enum = rows.enumFrom 0 from rfl,
        ← Recorder.rowsCheck_eq_find]
    have h2 : Recorder.specChainOffending rows = Recorder.chainCheck rows := by
      rw [Recorder.specChainOffending, ← Recorder.chainCheck_eq_find]
    rw [h1, h2]
    rfl
  · intro n suf; rfl
  · intro suf; rfl
  · intro b suf; cases b <;> rfl
  · intro suf; rfl

/-- C1 witness: a one-event run yields one receipt whose prev_hash is the
64-zero genesis value. -/
theorem c1_receipt_chain_w :
    (Recorder.analyzeEvents [[]] none [] 0).2.length = 1 ∧
    ((Recorder.analyzeEvents [[]] none [] 0).2.getD 0 dummyReceipt).prev_hash = GENESIS :=
  ⟨(c1_receipt_chain.1 [[]] none [] 0).1, by
    have h := (c1_receipt_chain.1 [[]] none [] 0).2 0 (by decide)
    simpa using h⟩

/-- C6 witness: an explicit declared=false wins in recorder.py but is
overridden by a matching intent in recorder_ext. -/
theorem c6_declared_amended_w :
    Recorder.eventDeclared [("declared", .bool false)] (some ["X"]) = false ∧
    Ext.getDeclared [("event_type", .str "X"), ("declared", .bool false)] (some ["X"]) = true :=
  ⟨c6_declared_amended.1 [("declared", .bool false)] (some ["X"]) false rfl,
   c6_declared_amended.2.2 [("event_type", .str "X"), ("declared", .bool false)] ["X"]
     (by decide) (by decide)⟩

/-- C7 witness: the risk-order property of `detect_risks` at a concrete
undeclared PROC_EXEC event. -/
theorem c7_order_amended_w :
    extRiskOrder (Ext.detectRisks [("event_type", .str "PROC_EXEC")] none [] 0) :=
  c7_order_amended.2 [("event_type", .str "PROC_EXEC")] none [] 0
